import Mathlib

/-!
Shallow embedding of the training-routes waypoint generator and refinement
loop (`public/route-generator.js`, `public/app.js`).

Numbers are embedded as elements of a linear ordered field; the geometry
helpers (`pointInPolygon`, `projectToSegment`, `polygonCentroid`,
`nearestPointOnPolygon`, `getWaypointCount`) only use field operations and
comparisons, so they are stated polymorphically and can be evaluated over `ℚ`
while the trigonometric waypoint generator is instantiated at `ℝ`.
JavaScript `{lat, lng}` objects become the `Pt` structure; a JS array of
vertices becomes a `List (Pt α)`; a missing (`null`) radius override becomes
`Option`.  JS `Math.random()` draws are modelled as an explicit stream
`rand : ℕ → ℝ` of values in `[0, 1)`, consumed in call order.
-/

namespace TrainingRoutes

/-- A coordinate pair, as the JS objects `{lat, lng}`. -/
structure Pt (α : Type) where
  lat : α
  lng : α
deriving DecidableEq, Repr

variable {α : Type} [LinearOrderedField α]

/-- Constant `METERS_PER_MILE = 1609.34` from route-generator.js. -/
def METERS_PER_MILE : α := 160934 / 100

/-- Constant `METERS_PER_DEGREE_LAT = 111320` from route-generator.js. -/
def METERS_PER_DEGREE_LAT : α := 111320

/-- Constant `ROAD_WINDING_FACTOR = 1.3` from route-generator.js. -/
def ROAD_WINDING_FACTOR : α := 13 / 10

/-- Function `getWaypointCount` from route-generator.js. -/
def getWaypointCount (distanceMiles : α) : ℕ :=
  if distanceMiles < 5 then 4
  else if distanceMiles < 13 then 6
  else 8

/-- Pair each vertex with its predecessor, the predecessor of the first
vertex being the last vertex: the pairs `(polygon[i], polygon[j])` with
`j = i-1` (wrapping) traversed by the `for` loops of `pointInPolygon` and
`nearestPointOnPolygon`, in loop order. -/
def withPrev : List (Pt α) → List (Pt α × Pt α)
  | [] => []
  | p :: ps => (p :: ps).zip ((p :: ps).getLastD p :: (p :: ps).dropLast)

/-- The edge list rebuilt as a chain: `chain l prev` pairs each element of
`l` with its predecessor, starting from `prev`.  `withPrev l` equals
`chain l (last of l)`; this reshaping drives the cyclic-parity argument. -/
def chain : List (Pt α) → Pt α → List (Pt α × Pt α)
  | [], _ => []
  | x :: xs, prev => (x, prev) :: chain xs x

/-- The toggle condition of one edge in `pointInPolygon`: with
`pq = (polygon[i], polygon[j])`, this is
`(yi > lat) !== (yj > lat) && lng < (xj - xi) * (lat - yi) / (yj - yi) + xi`. -/
def pipCond (lat lng : α) (pq : Pt α × Pt α) : Prop :=
  (¬ ((pq.1.lat > lat) ↔ (pq.2.lat > lat))) ∧
    lng < (pq.2.lng - pq.1.lng) * (lat - pq.1.lat) / (pq.2.lat - pq.1.lat) + pq.1.lng

instance (lat lng : α) (pq : Pt α × Pt α) : Decidable (pipCond lat lng pq) := by
  unfold pipCond; infer_instance

/-- Function `pointInPolygon` from route-generator.js: ray-casting even-odd test. -/
def pointInPolygon (lat lng : α) (polygon : List (Pt α)) : Bool :=
  (withPrev polygon).foldl
    (fun inside pq => if pipCond lat lng pq then !inside else inside) false

/-- Function `projectToSegment` from route-generator.js: project `(lat, lng)` onto the
segment from `a` to `b`, clamping the projection parameter to `[0, 1]`;
a zero-length segment returns `a`. -/
def projectToSegment (lat lng : α) (a b : Pt α) : Pt α :=
  let dx := b.lng - a.lng
  let dy := b.lat - a.lat
  let lenSq := dx * dx + dy * dy
  if lenSq = 0 then ⟨a.lat, a.lng⟩
  else
    let t := max 0 (min 1 (((lng - a.lng) * dx + (lat - a.lat) * dy) / lenSq))
    ⟨a.lat + t * dy, a.lng + t * dx⟩

/-- Function `polygonCentroid` from route-generator.js: unweighted vertex mean. -/
def polygonCentroid (polygon : List (Pt α)) : Pt α :=
  ⟨(polygon.map Pt.lat).sum / (polygon.length : α),
   (polygon.map Pt.lng).sum / (polygon.length : α)⟩

/-- One step of the best-projection fold in `nearestPointOnPolygon`: project
the query point onto the edge `(polygon[j], polygon[i])` (here
`pq = (polygon[i], polygon[j])`), and keep the strictly closer candidate by
squared degree distance.  The JS `bestDist` starts at `Infinity`; the
accumulator being `none` plays that role: the first projection always
wins. -/
def nearStep (lat lng : α) (acc : Option (α × Pt α)) (pq : Pt α × Pt α) : Option (α × Pt α) :=
  let proj := projectToSegment lat lng pq.2 pq.1
  let d := (proj.lat - lat) * (proj.lat - lat) + (proj.lng - lng) * (proj.lng - lng)
  match acc with
  | none => some (d, proj)
  | some (bd, bp) => if d < bd then some (d, proj) else some (bd, bp)

/-- Function `nearestPointOnPolygon` from route-generator.js: keep the globally
closest projection onto an edge, then nudge the result 2% toward the
centroid. -/
def nearestPointOnPolygon (lat lng : α) (polygon : List (Pt α)) : Pt α :=
  let best := (withPrev polygon).foldl (nearStep lat lng) none
  let bestPoint := match best with
    | none => (⟨lat, lng⟩ : Pt α)
    | some (_, p) => p
  let centroid := polygonCentroid polygon
  let nudge : α := 2 / 100
  ⟨bestPoint.lat + (centroid.lat - bestPoint.lat) * nudge,
   bestPoint.lng + (centroid.lng - bestPoint.lng) * nudge⟩

/-- The base radius `targetCircumferenceMeters / (2 * Math.PI * ROAD_WINDING_FACTOR)`
derived in `generateWaypoints` when no radius override is active. -/
noncomputable def baseRadius (distanceMiles : ℝ) : ℝ :=
  distanceMiles * METERS_PER_MILE / (2 * Real.pi * ROAD_WINDING_FACTOR)

/-- The radius selected by `generateWaypoints`:
`radiusOverride || targetCircumferenceMeters / (2π·windingFactor)`.
JS `||` falls through to the derived radius when the override is absent
(`null`) or `0`, both falsy. -/
noncomputable def resolveRadius (distanceMiles : ℝ) (radiusOverride : Option ℝ) : ℝ :=
  match radiusOverride with
  | none => baseRadius distanceMiles
  | some r => if r = 0 then baseRadius distanceMiles else r

/-- The loop body of `generateWaypoints` with the radius already resolved:
place `count` waypoints at angles `offset + 2πi/count`, radius independently
perturbed per waypoint by `0.85 + rand·0.3`, converted to degree deltas, and
each point failing `pointInPolygon` against an active (≥3-vertex) boundary is
replaced by `nearestPointOnPolygon`.  `rand 0` is the shared rotation draw,
`rand (i+1)` the perturbation draw of waypoint `i`, matching the order the JS
code calls `Math.random()`. -/
noncomputable def waypointsAtRadius (startLat startLng : ℝ) (count : ℕ) (radius : ℝ)
    (boundary : List (Pt ℝ)) (rand : ℕ → ℝ) : List (Pt ℝ) :=
  let randomOffset := rand 0 * (2 * Real.pi)
  let startLatRad := startLat * Real.pi / 180
  let metersPerDegreeLng := METERS_PER_DEGREE_LAT * Real.cos startLatRad
  (List.range count).map fun (i : ℕ) =>
    let angle := randomOffset + 2 * Real.pi * (i : ℝ) / (count : ℝ)
    let perturbedRadius := radius * (85 / 100 + rand (i + 1) * (3 / 10))
    let dLat := perturbedRadius * Real.cos angle / METERS_PER_DEGREE_LAT
    let dLng := perturbedRadius * Real.sin angle / metersPerDegreeLng
    let lat := startLat + dLat
    let lng := startLng + dLng
    if 3 ≤ boundary.length then
      if pointInPolygon lat lng boundary then ⟨lat, lng⟩
      else nearestPointOnPolygon lat lng boundary
    else ⟨lat, lng⟩

/-- Function `generateWaypoints` from route-generator.js.  A `null` boundary is
embedded as the empty list (both are inactive: fewer than 3 vertices). -/
noncomputable def generateWaypoints (startLat startLng distanceMiles : ℝ)
    (radiusOverride : Option ℝ) (boundary : List (Pt ℝ)) (rand : ℕ → ℝ) : List (Pt ℝ) :=
  waypointsAtRadius startLat startLng (getWaypointCount distanceMiles)
    (resolveRadius distanceMiles radiusOverride) boundary rand

/-- Function `adjustWaypoints` from route-generator.js: recompute the model base
radius, scale it by `sqrt(targetMeters / actualDistanceMeters)`, and
regenerate the waypoints at that radius. -/
noncomputable def adjustWaypoints (startLat startLng distanceMiles actualDistanceMeters : ℝ)
    (boundary : List (Pt ℝ)) (rand : ℕ → ℝ) : List (Pt ℝ) :=
  let targetMeters := distanceMiles * METERS_PER_MILE
  let currentCircumference := distanceMiles * METERS_PER_MILE
  let currentRadius := currentCircumference / (2 * Real.pi * ROAD_WINDING_FACTOR)
  let ratio := targetMeters / actualDistanceMeters
  let adjustedRadius := currentRadius * Real.sqrt ratio
  generateWaypoints startLat startLng distanceMiles (some adjustedRadius) boundary rand

/-- One response of the external routing collaborator (`/api/route`):
either a route list with a first route carrying `distanceMeters`, or an
empty/missing route list.  Transport failures (`!res.ok`) abort either loop
the same way and are outside the claims, so they are not modelled. -/
inductive RouteResponse where
  | noRoute : RouteResponse
  | found : ℝ → RouteResponse

/-- The exact error message thrown by both `computeRoute` variants when the
collaborator returns zero routes. -/
def noRouteMsg : String := "No route found. Try a different starting location."

namespace AppSimple

/-- Budget `maxAttempts = 3` in public/app.js `computeRoute`. -/
def maxAttempts : ℕ := 3

/-- The radius-selection step at the top of each iteration of the
public/app.js loop: on attempt 1, or when the module global
`lastActualDistanceMeters` is falsy (`null` or `0`), generate fresh
(no override, `lastRadius` untouched); otherwise
`adjustedRadius = (lastRadius || baseRadius) * sqrt(targetMeters / lastActual)`
with `baseRadius = targetMeters / (2π·1.3)`, which becomes both the override
and the new `lastRadius`.  Returns `(override, new lastRadius)`. -/
noncomputable def stepRadius (targetMeters : ℝ) (attemptNum : ℕ)
    (lastRadius lastActual : Option ℝ) : Option ℝ × Option ℝ :=
  match lastActual with
  | none => (none, lastRadius)
  | some v =>
    if attemptNum = 1 ∨ v = 0 then (none, lastRadius)
    else
      let ratio := targetMeters / v
      let base := targetMeters / (2 * Real.pi * (13 / 10))
      let adjustedRadius := (lastRadius.getD base) * Real.sqrt ratio
      (some adjustedRadius, some adjustedRadius)

/-- The refinement loop of `computeRoute` in public/app.js (symmetric ±10%
tolerance variant).  State per iteration: `attempts` already made,
`lastRadius` (the JS local, `null` initially), `lastActual` (the module
global `lastActualDistanceMeters`, which survives across runs and whose JS
falsiness test `!lastActualDistanceMeters` is `none` or `0` here).
`respond k` is the collaborator result of attempt `k` (1-indexed).  The
returned pair records, in order, the radius override passed to
`generateWaypoints` on each attempt performed, and the outcome: the error
thrown on a zero-route response, or the observed distance of the accepted
final attempt.  Waypoint generation itself does not influence the control
flow and is recorded only through those overrides.  `fuel` bounds the
recursion; the top-level entry supplies `maxAttempts`, which the loop
condition and break test never exceed. -/
noncomputable def loop (distanceMiles : ℝ) (respond : ℕ → RouteResponse) :
    ℕ → Option ℝ → Option ℝ → ℕ → List (Option ℝ) × Except String ℝ
  | _, _, _, 0 => ([], Except.error "")
  | attempts, lastRadius, lastActual, fuel + 1 =>
    let attempts' := attempts + 1
    let targetMeters := distanceMiles * METERS_PER_MILE
    let step := stepRadius targetMeters attempts' lastRadius lastActual
    match respond attempts' with
    | RouteResponse.noRoute => ([step.1], Except.error noRouteMsg)
    | RouteResponse.found dist =>
      let pctDiff := |dist - targetMeters| / targetMeters
      if pctDiff ≤ 10 / 100 ∨ maxAttempts ≤ attempts' then
        ([step.1], Except.ok dist)
      else
        let rest := loop distanceMiles respond attempts' step.2 (some dist) fuel
        (step.1 :: rest.1, rest.2)

/-- Entry point of the public/app.js refinement loop: attempts start at 0,
the local `lastRadius` at `null`; `initLastActual` is the value the module
global `lastActualDistanceMeters` has when the run starts. -/
noncomputable def computeRoute (distanceMiles : ℝ) (respond : ℕ → RouteResponse)
    (initLastActual : Option ℝ) : List (Option ℝ) × Except String ℝ :=
  loop distanceMiles respond 0 none initLastActual maxAttempts

end AppSimple

namespace AppRefined

/-- Budget `maxAttempts = 4` in the asymmetric-tolerance `computeRoute` variant. -/
def maxAttempts : ℕ := 4

/-- The radius-selection step of the asymmetric-tolerance variant: as
`AppSimple.stepRadius` but with the 5% overshoot bias on the ratio
(`biasedTarget = targetMeters * 1.05`) and base anchor
`targetMeters / (2π·1.15)`. -/
noncomputable def stepRadius (targetMeters : ℝ) (attemptNum : ℕ)
    (lastRadius lastActual : Option ℝ) : Option ℝ × Option ℝ :=
  match lastActual with
  | none => (none, lastRadius)
  | some v =>
    if attemptNum = 1 ∨ v = 0 then (none, lastRadius)
    else
      let biasedTarget := targetMeters * (105 / 100)
      let ratio := biasedTarget / v
      let base := targetMeters / (2 * Real.pi * (115 / 100))
      let adjustedRadius := (lastRadius.getD base) * Real.sqrt ratio
      (some adjustedRadius, some adjustedRadius)

/-- The refinement loop of the asymmetric-tolerance `computeRoute` variant
(overshoot bias `1.05`, base anchor `2π·1.15`, accept when the signed
`pctDiff` is neither `> 0.10` nor `< -0.03`).  Modelled exactly as
`AppSimple.loop` otherwise. -/
noncomputable def loop (distanceMiles : ℝ) (respond : ℕ → RouteResponse) :
    ℕ → Option ℝ → Option ℝ → ℕ → List (Option ℝ) × Except String ℝ
  | _, _, _, 0 => ([], Except.error "")
  | attempts, lastRadius, lastActual, fuel + 1 =>
    let attempts' := attempts + 1
    let targetMeters := distanceMiles * METERS_PER_MILE
    let step := stepRadius targetMeters attempts' lastRadius lastActual
    match respond attempts' with
    | RouteResponse.noRoute => ([step.1], Except.error noRouteMsg)
    | RouteResponse.found dist =>
      let pctDiff := (dist - targetMeters) / targetMeters
      let tooLong := pctDiff > 10 / 100
      let tooShort := pctDiff < -(3 / 100)
      if (¬tooLong ∧ ¬tooShort) ∨ maxAttempts ≤ attempts' then
        ([step.1], Except.ok dist)
      else
        let rest := loop distanceMiles respond attempts' step.2 (some dist) fuel
        (step.1 :: rest.1, rest.2)

/-- Entry point of the asymmetric-tolerance refinement loop. -/
noncomputable def computeRoute (distanceMiles : ℝ) (respond : ℕ → RouteResponse)
    (initLastActual : Option ℝ) : List (Option ℝ) × Except String ℝ :=
  loop distanceMiles respond 0 none initLastActual maxAttempts

end AppRefined

/-- The acceptance condition of the asymmetric variant, exactly as tested by
its loop: the signed percentage difference is neither `> 0.10` (too long) nor
`< -0.03` (too short). -/
def acceptBandR (t v : ℝ) : Prop :=
  ¬((v - t) / t > 10 / 100) ∧ ¬((v - t) / t < -(3 / 100))

/-- The acceptance condition of the symmetric variant, exactly as tested by
its loop: the absolute percentage difference is at most `0.10`. -/
def acceptBandS (t v : ℝ) : Prop :=
  |v - t| / t ≤ 10 / 100

/-- An axis-aligned rectangle boundary with the vertex order of the spec's
section-8 square scenario: `(latLo,lngLo), (latLo,lngHi), (latHi,lngHi),
(latHi,lngLo)`. -/
def rectPoly (latLo latHi lngLo lngHi : α) : List (Pt α) :=
  [⟨latLo, lngLo⟩, ⟨latLo, lngHi⟩, ⟨latHi, lngHi⟩, ⟨latHi, lngLo⟩]

/-- Modelled from the spec: one edge of the polygon properly crosses the
horizontal ray cast rightward (toward increasing longitude) from
`(lat, lng)` — the point's latitude lies strictly between the edge's
endpoint latitudes and the edge's intersection with that horizontal line
lies strictly to the right of the point.  This is the textbook crossing
notion behind the spec's "standard ray-casting / even-odd rule". -/
def crossesRay (lat lng : α) (pq : Pt α × Pt α) : Prop :=
  min pq.1.lat pq.2.lat < lat ∧ lat < max pq.1.lat pq.2.lat ∧
    lng < pq.1.lng + (pq.2.lng - pq.1.lng) * (lat - pq.1.lat) / (pq.2.lat - pq.1.lat)

instance (lat lng : α) (pq : Pt α × Pt α) : Decidable (crossesRay lat lng pq) := by
  unfold crossesRay; infer_instance

/-- Modelled from the spec: a point is strictly enclosed by a polygon, in the
even-odd sense, when the rightward horizontal ray from it properly crosses an
odd number of edges.  The point's latitude is required to differ from every
vertex latitude (a generic-position condition: for such points proper
crossings are the only ray/edge incidences, so the even-odd count is the
classical interior test the spec appeals to). -/
def strictlyEnclosed (lat lng : α) (polygon : List (Pt α)) : Prop :=
  (∀ v ∈ polygon, v.lat ≠ lat) ∧
    Odd ((withPrev polygon).countP fun pq => decide (crossesRay lat lng pq))

/-- A concrete concave "L"-shaped polygon (rational coordinates): the unit
band `lat ∈ [0,1], lng ∈ [0,2]` plus the band `lat ∈ [1,2], lng ∈ [0,1]`,
with the re-entrant corner at `(1,1)`. -/
def Lshape : List (Pt ℚ) :=
  [⟨0, 0⟩, ⟨0, 2⟩, ⟨1, 2⟩, ⟨1, 1⟩, ⟨2, 1⟩, ⟨2, 0⟩]

/-- A concrete concave "U"-shaped polygon over the program's reals: the base
band `lat ∈ [0,1]`, `lng ∈ [0,3]` with two arms `lat ∈ [1,3]` at
`lng ∈ [0,1]` and `lng ∈ [2,3]`.  Its vertex-mean centroid `(7/4, 3/2)`
falls in the notch, outside the polygon. -/
def UshapeR : List (Pt ℝ) :=
  [⟨0, 0⟩, ⟨0, 3⟩, ⟨3, 3⟩, ⟨3, 2⟩, ⟨1, 2⟩, ⟨1, 1⟩, ⟨3, 1⟩, ⟨3, 0⟩]

/-- Modelled from the spec: the corrected-radius recurrence of the refinement
loop, `newRadius = (previous radius, or the base radius if none yet) ×
sqrt(ratio)` with `ratio = biasedTarget / lastObservedMeters`.
`specRadius biasedTarget base obs k` is the radius after `k` corrections,
anchored at the base radius; `obs j` is the distance observed on attempt
`j`. -/
noncomputable def specRadius (biasedTarget base : ℝ) (obs : ℕ → ℝ) : ℕ → ℝ
  | 0 => base
  | k + 1 => specRadius biasedTarget base obs k * Real.sqrt (biasedTarget / obs (k + 1))

end TrainingRoutes

namespace TrainingRoutes

/-! ### C10: adjustWaypoints refines generateWaypoints at an explicit radius -/

/-- C10: for positive observed distance `a`, the exported helper
`adjustWaypoints(startLat, startLng, d, a, boundary)` is exactly
`generateWaypoints(startLat, startLng, d, r, boundary)` with
`r = (d·1609.34 / (2π·1.3)) · sqrt((d·1609.34) / a)` and the same random
draws: the correction is anchored at the model base radius with no overshoot
bias. -/
theorem adjustWaypoints_eq_generate (startLat startLng d a : ℝ)
    (boundary : List (Pt ℝ)) (rand : ℕ → ℝ) (ha : 0 < a) :
    adjustWaypoints startLat startLng d a boundary rand =
      generateWaypoints startLat startLng d
        (some (d * 1609.34 / (2 * Real.pi * 1.3) * Real.sqrt (d * 1609.34 / a)))
        boundary rand := by
  norm_num [adjustWaypoints, METERS_PER_MILE, ROAD_WINDING_FACTOR]

/-- Witness for C10 at a concrete input. -/
theorem adjustWaypoints_eq_generate_witness :
    adjustWaypoints 1 2 3 4 [] (fun _ => 0) =
      generateWaypoints 1 2 3
        (some ((3 : ℝ) * 1609.34 / (2 * Real.pi * 1.3) * Real.sqrt (3 * 1609.34 / 4)))
        [] (fun _ => 0) :=
  adjustWaypoints_eq_generate 1 2 3 4 [] (fun _ => 0) (by norm_num)

/-! ### C6: waypoint count is a step function of the target distance only -/

/-- C6: the waypoint list length always equals `getWaypointCount targetMiles`
— independent of start, radius override, boundary and random draws — and
`getWaypointCount` is the step function 4 on `[0,5)`, 6 on `[5,13)`, 8 on
`[13,∞)`, with the boundary values 4.999→4, 5→6, 12.999→6, 13→8. -/
theorem waypointCount_spec :
    (∀ (startLat startLng distanceMiles : ℝ) (ro : Option ℝ) (boundary : List (Pt ℝ))
        (rand : ℕ → ℝ),
        (generateWaypoints startLat startLng distanceMiles ro boundary rand).length =
          getWaypointCount distanceMiles) ∧
    (∀ d : ℝ, (0 ≤ d → d < 5 → getWaypointCount d = 4) ∧
      (5 ≤ d → d < 13 → getWaypointCount d = 6) ∧
      (13 ≤ d → getWaypointCount d = 8)) ∧
    getWaypointCount (4.999 : ℝ) = 4 ∧ getWaypointCount (5 : ℝ) = 6 ∧
    getWaypointCount (12.999 : ℝ) = 6 ∧ getWaypointCount (13 : ℝ) = 8 := by
  refine ⟨fun startLat startLng d ro boundary rand => ?_, fun d => ⟨?_, ?_, ?_⟩, ?_, ?_, ?_, ?_⟩
  · simp [generateWaypoints, waypointsAtRadius]
  all_goals
    intros
    simp only [getWaypointCount]
    split_ifs <;> first | rfl | linarith

/-- Witness for C6 at concrete inputs. -/
theorem waypointCount_spec_witness :
    (generateWaypoints 0 0 7 (some 500) [⟨0, 0⟩, ⟨0, 1⟩, ⟨1, 1⟩] (fun _ => 1/2)).length =
      getWaypointCount (7 : ℝ) ∧ getWaypointCount (7 : ℝ) = 6 :=
  ⟨waypointCount_spec.1 0 0 7 (some 500) [⟨0, 0⟩, ⟨0, 1⟩, ⟨1, 1⟩] (fun _ => 1/2),
    (waypointCount_spec.2.1 7).2.1 (by norm_num) (by norm_num)⟩

/-! ### C9: projectToSegment clamps the projection parameter -/

/-- C9: `projectToSegment` returns the point of the closed segment at the
scalar projection parameter clamped to `[0,1]`; a zero-length segment
(`A = B`) returns `A` exactly.  Stated over any linear ordered field, hence
in particular over the reals used by the program. -/
theorem projectToSegment_spec {α : Type} [LinearOrderedField α]
    (lat lng : α) (a b : Pt α) :
    (a.lat = b.lat ∧ a.lng = b.lng → projectToSegment lat lng a b = a) ∧
    ∃ t : α,
      t = max 0 (min 1
        (((lng - a.lng) * (b.lng - a.lng) + (lat - a.lat) * (b.lat - a.lat)) /
          ((b.lng - a.lng) * (b.lng - a.lng) + (b.lat - a.lat) * (b.lat - a.lat)))) ∧
      0 ≤ t ∧ t ≤ 1 ∧
      (¬(a.lat = b.lat ∧ a.lng = b.lng) →
        projectToSegment lat lng a b =
          ⟨a.lat + t * (b.lat - a.lat), a.lng + t * (b.lng - a.lng)⟩) := by
  constructor
  · rintro ⟨h1, h2⟩
    simp [projectToSegment, ← h1, ← h2]
  · refine ⟨_, rfl, le_max_left _ _, ?_, fun h => ?_⟩
    · exact max_le (by norm_num) (le_trans (min_le_left _ _) le_rfl)
    · have hlen : (b.lng - a.lng) * (b.lng - a.lng) + (b.lat - a.lat) * (b.lat - a.lat) ≠ 0 := by
        intro hc
        apply h
        have h1 : (b.lng - a.lng) * (b.lng - a.lng) = 0 ∧ (b.lat - a.lat) * (b.lat - a.lat) = 0 := by
          constructor <;> nlinarith [mul_self_nonneg (b.lng - a.lng), mul_self_nonneg (b.lat - a.lat)]
        have h2 := mul_self_eq_zero.mp h1.1
        have h3 := mul_self_eq_zero.mp h1.2
        constructor <;> linarith
      simp [projectToSegment, hlen]

/-- Witness for C9: the zero-length case and a clamped overshooting case at
concrete rational inputs, both obtained from the main theorem. -/
theorem projectToSegment_spec_witness :
    projectToSegment (5 : ℚ) 7 ⟨1, 1⟩ ⟨1, 1⟩ = ⟨1, 1⟩ ∧
    projectToSegment (2 : ℚ) 2 ⟨0, 0⟩ ⟨0, 1⟩ = ⟨0, 1⟩ := by
  constructor
  · exact (projectToSegment_spec 5 7 ⟨1, 1⟩ ⟨1, 1⟩).1 ⟨rfl, rfl⟩
  · obtain ⟨-, t, ht, -, -, h⟩ := projectToSegment_spec (2 : ℚ) 2 ⟨0, 0⟩ ⟨0, 1⟩
    rw [h (by norm_num), ht]
    norm_num

/-! ### C7: derived radius and spread of unbounded waypoints -/

/-- The meters-per-degree-longitude factor at the scenario start latitude
40.7128° is at least `0.747` of the latitude factor (quadratic Taylor lower
bound on the cosine). -/
theorem cos_scenario_lat_lower : (747 / 1000 : ℝ) ≤ Real.cos (40.7128 * Real.pi / 180) := by
  have hπu := Real.pi_lt_d6
  have hπl := Real.pi_gt_d6
  have hx : 40.7128 * Real.pi / 180 ≤ 40.7128 * 3.141593 / 180 := by nlinarith
  have hx0 : (0 : ℝ) ≤ 40.7128 * Real.pi / 180 := by positivity
  have h := Real.one_sub_sq_div_two_le_cos (x := 40.7128 * Real.pi / 180)
  nlinarith [sq_nonneg (40.7128 * Real.pi / 180)]

/-- C7: with no radius override (or an override of `0`), `generateWaypoints`
uses the derived radius `targetMiles·1609.34 / (2π·1.3)` — about 984 m for
5 miles — and in the 5-mile, no-boundary scenario each of the 6 returned
waypoints is the start plus a displacement of a perturbed radius
`f ∈ [0.85, 1.15]` times that base radius (latitude via 111320 m/degree,
longitude additionally scaled by the cosine of the start latitude), hence
lies within `1.55×` the base radius of the start in straight-line degree
distance. -/
theorem generateWaypoints_radius_spec :
    (∀ d : ℝ, resolveRadius d none = d * 1609.34 / (2 * Real.pi * 1.3) ∧
      resolveRadius d (some 0) = d * 1609.34 / (2 * Real.pi * 1.3) ∧
      ∀ (s l : ℝ) (b : List (Pt ℝ)) (rand : ℕ → ℝ),
        generateWaypoints s l d none b rand =
          waypointsAtRadius s l (getWaypointCount d)
            (d * 1609.34 / (2 * Real.pi * 1.3)) b rand) ∧
    |resolveRadius 5 none - 984| < 2 ∧
    ∀ (ro : Option ℝ) (rand : ℕ → ℝ),
      ro = none ∨ ro = some 0 →
      (∀ n, 0 ≤ rand n ∧ rand n < 1) →
      (generateWaypoints 40.7128 (-74.0060) 5 ro [] rand).length = 6 ∧
      ∀ p ∈ generateWaypoints 40.7128 (-74.0060) 5 ro [] rand,
        (∃ f θ : ℝ, 85 / 100 ≤ f ∧ f ≤ 115 / 100 ∧
          p.lat = 40.7128 + resolveRadius 5 none * f * Real.cos θ / 111320 ∧
          p.lng = -74.0060 + resolveRadius 5 none * f * Real.sin θ /
            (111320 * Real.cos (40.7128 * Real.pi / 180))) ∧
        (p.lat - 40.7128) ^ 2 + (p.lng - -74.0060) ^ 2 ≤
          (155 / 100 * resolveRadius 5 none / 111320) ^ 2 := by
  have hbase : ∀ d : ℝ, baseRadius d = d * 1609.34 / (2 * Real.pi * 1.3) := by
    intro d
    norm_num [baseRadius, METERS_PER_MILE, ROAD_WINDING_FACTOR]
  refine ⟨fun d => ⟨hbase d, by simp [resolveRadius, hbase d],
    fun s l b rand => by rw [generateWaypoints, show resolveRadius d none = _ from hbase d]⟩,
    ?_, ?_⟩
  · have hπu := Real.pi_lt_d6
    have hπl := Real.pi_gt_d6
    have hπ0 := Real.pi_pos
    rw [abs_lt]
    rw [show resolveRadius (5 : ℝ) none = baseRadius 5 from rfl, hbase 5]
    constructor
    · rw [lt_sub_iff_add_lt, lt_div_iff (by nlinarith)]
      nlinarith
    · rw [sub_lt_iff_lt_add, div_lt_iff (by nlinarith)]
      nlinarith
  · intro ro rand hro hrand
    have hres : resolveRadius 5 ro = resolveRadius 5 none := by
      rcases hro with rfl | rfl
      · rfl
      · simp [resolveRadius]
    have hR0 : 0 ≤ resolveRadius 5 none := by
      rw [show resolveRadius (5 : ℝ) none = baseRadius 5 from rfl, hbase 5]
      have := Real.pi_pos
      positivity
    constructor
    · simp [generateWaypoints, waypointsAtRadius, getWaypointCount]
      norm_num
    · intro p hp
      simp only [generateWaypoints, waypointsAtRadius, List.mem_map, List.mem_range] at hp
      obtain ⟨i, hi, rfl⟩ := hp
      simp only [List.length_nil, show ¬(3 ≤ 0) by norm_num, if_false]
      set θ := rand 0 * (2 * Real.pi) +
        2 * Real.pi * (i : ℝ) / ((getWaypointCount (5 : ℝ) : ℕ) : ℝ) with hθ
      set f := 85 / 100 + rand (i + 1) * (3 / 10) with hf
      have hf1 : 85 / 100 ≤ f := by
        have := (hrand (i + 1)).1
        rw [hf]; nlinarith
      have hf2 : f ≤ 115 / 100 := by
        have := (hrand (i + 1)).2
        rw [hf]; nlinarith
      have hc1 := cos_scenario_lat_lower
      have hc2 := Real.cos_le_one (40.7128 * Real.pi / 180)
      have hc0 : (0 : ℝ) < Real.cos (40.7128 * Real.pi / 180) := by linarith
      constructor
      · exact ⟨f, θ, hf1, hf2, by simp only [hres, METERS_PER_DEGREE_LAT],
          by simp only [hres, METERS_PER_DEGREE_LAT]⟩
      · have hpyth := Real.sin_sq_add_cos_sq θ
        simp only [hres, METERS_PER_DEGREE_LAT]
        set R := resolveRadius 5 none
        set a := Real.cos θ
        set b := Real.sin θ
        set c := Real.cos (40.7128 * Real.pi / 180)
        clear_value R a b c
        clear hθ hf hres hi
        have hf0 : (0 : ℝ) ≤ f := le_trans (by norm_num) hf1
        clear_value f
        have key : (40.7128 + R * f * a / 111320 - 40.7128) ^ 2 +
            (-74.0060 + R * f * b / (111320 * c) - -74.0060) ^ 2 =
            (R * f / 111320) ^ 2 * (a ^ 2 + b ^ 2 / c ^ 2) := by
          field_simp
          ring
        have habc : a ^ 2 + b ^ 2 / c ^ 2 ≤ 1 / c ^ 2 := by
          have hc2' : (0 : ℝ) < c ^ 2 := by positivity
          have hsum : a ^ 2 + b ^ 2 / c ^ 2 = (a ^ 2 * c ^ 2 + b ^ 2) / c ^ 2 := by
            field_simp
          have h1c : (0 : ℝ) ≤ 1 - c ^ 2 := by nlinarith
          have key2 : a ^ 2 * c ^ 2 + b ^ 2 ≤ 1 := by
            nlinarith [mul_nonneg (sq_nonneg a) h1c]
          rw [hsum, div_le_div_iff hc2' hc2']
          nlinarith [mul_le_mul_of_nonneg_right key2 (le_of_lt hc2')]
        calc (40.7128 + R * f * a / 111320 - 40.7128) ^ 2 +
            (-74.0060 + R * f * b / (111320 * c) - -74.0060) ^ 2
            = (R * f / 111320) ^ 2 * (a ^ 2 + b ^ 2 / c ^ 2) := key
          _ ≤ (R * f / 111320) ^ 2 * (1 / c ^ 2) := by
              exact mul_le_mul_of_nonneg_left habc (by positivity)
          _ ≤ (155 / 100 * R / 111320) ^ 2 := by
              have hfc : f ≤ 155 / 100 * c := by nlinarith
              have h1 : R * f ≤ R * (155 / 100 * c) := mul_le_mul_of_nonneg_left hfc hR0
              have h2 : (R * f) ^ 2 ≤ (R * (155 / 100 * c)) ^ 2 :=
                pow_le_pow_left (mul_nonneg hR0 hf0) h1 2
              have expand1 : (R * f / 111320) ^ 2 * (1 / c ^ 2) =
                  (R * f) ^ 2 / (111320 ^ 2 * c ^ 2) := by
                field_simp
              have expand2 : (155 / 100 * R / 111320 : ℝ) ^ 2 =
                  (R * (155 / 100 * c)) ^ 2 / (111320 ^ 2 * c ^ 2) := by
                field_simp
                ring
              have hden : (0 : ℝ) < 111320 ^ 2 * c ^ 2 := by positivity
              rw [expand1, expand2, div_le_div_iff hden hden]
              nlinarith [mul_le_mul_of_nonneg_right h2 (le_of_lt hden)]

/-- Witness for C7 at the concrete scenario inputs with constant draws. -/
theorem generateWaypoints_radius_spec_witness :
    (generateWaypoints 40.7128 (-74.0060) 5 none [] (fun _ => 1/2)).length = 6 :=
  (generateWaypoints_radius_spec.2.2 none (fun _ => 1/2) (Or.inl rfl)
    (fun _ => by norm_num)).1

/-! ### Refinement-loop trace lemmas -/

/-- Running the asymmetric loop from `attempts = a`: if every response before
relative attempt `k` is an observed distance outside the tolerance band (with
the budget not yet exhausted) and the `k`-th response has zero routes, the
run fails with the no-route error after exactly `k` further attempts. -/
theorem AppRefined.loop_stop_noRoute (d : ℝ) (respond : ℕ → RouteResponse) (obs : ℕ → ℝ) :
    ∀ (k fuel a : ℕ) (lr la : Option ℝ), 1 ≤ k → k ≤ fuel →
      (∀ j, 1 ≤ j → j < k → respond (a + j) = RouteResponse.found (obs (a + j)) ∧
        ¬acceptBandR (d * METERS_PER_MILE) (obs (a + j)) ∧ ¬(maxAttempts ≤ a + j)) →
      respond (a + k) = RouteResponse.noRoute →
      (loop d respond a lr la fuel).2 = Except.error noRouteMsg ∧
      (loop d respond a lr la fuel).1.length = k := by
  intro k
  induction k with
  | zero => intro fuel a lr la h1; exact absurd h1 (by norm_num)
  | succ k ih =>
    intro fuel a lr la _ hk hj hstop
    obtain ⟨f, rfl⟩ : ∃ f, fuel = f + 1 := ⟨fuel - 1, by omega⟩
    simp only [loop]
    rcases Nat.eq_zero_or_pos k with rfl | hk1
    · rw [show a + (0 + 1) = a + 1 by omega] at hstop
      rw [hstop]
      simp
    · have hv := hj 1 le_rfl (by omega)
      rw [hv.1]
      dsimp only
      rw [if_neg (fun h => h.elim hv.2.1 hv.2.2)]
      have hrec := ih f (a + 1) (stepRadius (d * METERS_PER_MILE) (a + 1) lr la).2
        (some (obs (a + 1))) hk1 (by omega)
        (fun j hj1 hj2 => by
          have h := hj (j + 1) (by omega) (by omega)
          rwa [show a + (j + 1) = a + 1 + j by omega] at h)
        (by rwa [show a + 1 + k = a + (k + 1) by omega])
      simp only [List.length_cons]
      exact ⟨hrec.1, by rw [hrec.2]⟩

/-- Running the asymmetric loop from `attempts = a`: if every response
before relative attempt `k` is rejected by the tolerance band (budget not yet
exhausted) and the `k`-th observed distance is accepted — in band, or the
budget is exhausted at that attempt — the run ends with exactly `k` further
attempts, returning the `k`-th observation. -/
theorem AppRefined.loop_stop_found (d : ℝ) (respond : ℕ → RouteResponse) (obs : ℕ → ℝ) :
    ∀ (k fuel a : ℕ) (lr la : Option ℝ), 1 ≤ k → k ≤ fuel →
      (∀ j, 1 ≤ j → j < k → respond (a + j) = RouteResponse.found (obs (a + j)) ∧
        ¬acceptBandR (d * METERS_PER_MILE) (obs (a + j)) ∧ ¬(maxAttempts ≤ a + j)) →
      respond (a + k) = RouteResponse.found (obs (a + k)) →
      (acceptBandR (d * METERS_PER_MILE) (obs (a + k)) ∨ maxAttempts ≤ a + k) →
      (loop d respond a lr la fuel).2 = Except.ok (obs (a + k)) ∧
      (loop d respond a lr la fuel).1.length = k := by
  intro k
  induction k with
  | zero => intro fuel a lr la h1; exact absurd h1 (by norm_num)
  | succ k ih =>
    intro fuel a lr la _ hk hj hfound hacc
    obtain ⟨f, rfl⟩ : ∃ f, fuel = f + 1 := ⟨fuel - 1, by omega⟩
    simp only [loop]
    rcases Nat.eq_zero_or_pos k with rfl | hk1
    · rw [show a + (0 + 1) = a + 1 by omega] at hfound hacc ⊢
      rw [hfound]
      dsimp only
      simp only [acceptBandR] at hacc
      rw [if_pos hacc]
      simp
    · have hv := hj 1 le_rfl (by omega)
      rw [hv.1]
      dsimp only
      rw [if_neg (fun h => h.elim hv.2.1 hv.2.2)]
      have hrec := ih f (a + 1) (stepRadius (d * METERS_PER_MILE) (a + 1) lr la).2
        (some (obs (a + 1))) hk1 (by omega)
        (fun j hj1 hj2 => by
          have h := hj (j + 1) (by omega) (by omega)
          rwa [show a + (j + 1) = a + 1 + j by omega] at h)
        (by rwa [show a + 1 + k = a + (k + 1) by omega])
        (by rwa [show a + 1 + k = a + (k + 1) by omega])
      simp only [List.length_cons]
      refine ⟨?_, by rw [hrec.2]⟩
      rw [show a + (k + 1) = a + 1 + k by omega]
      exact hrec.1

/-- When every response of the asymmetric loop carries a route, the run never
errors: it always accepts some observed distance (a tolerance miss after the
final attempt included). -/
theorem AppRefined.loop_allfound_ok (d : ℝ) (respond : ℕ → RouteResponse) (obs : ℕ → ℝ)
    (hall : ∀ j, respond j = RouteResponse.found (obs j)) :
    ∀ (fuel a : ℕ) (lr la : Option ℝ), a + fuel = maxAttempts → 1 ≤ fuel →
      ∃ v, (loop d respond a lr la fuel).2 = Except.ok v := by
  intro fuel
  induction fuel with
  | zero => intro a lr la _ h1; exact absurd h1 (by norm_num)
  | succ f ih =>
    intro a lr la hmax _
    simp only [loop]
    rw [hall (a + 1)]
    dsimp only
    by_cases hacc : acceptBandR (d * METERS_PER_MILE) (obs (a + 1)) ∨ maxAttempts ≤ a + 1
    · simp only [acceptBandR] at hacc
      rw [if_pos hacc]
      exact ⟨obs (a + 1), rfl⟩
    · rw [if_neg (by simpa only [acceptBandR] using hacc)]
      have hf1 : 1 ≤ f := by
        rcases Nat.eq_zero_or_pos f with rfl | h
        · exact absurd (Or.inr (by omega)) hacc
        · exact h
      obtain ⟨v, hv⟩ := ih (a + 1) (stepRadius (d * METERS_PER_MILE) (a + 1) lr la).2
        (some (obs (a + 1))) (by omega) hf1
      exact ⟨v, hv⟩

/-- Trace of the radius overrides of the asymmetric loop: entering with
`m + 1` attempts done, last observation `obs (m+1)` and last radius
`specRadius (m)` (none when `m = 0`), every further attempt `k` uses the
override `specRadius (m + k)` of the spec's recurrence with overshoot bias
1.05 and base anchor `2π·1.15`. -/
theorem AppRefined.loop_radii (d : ℝ) (respond : ℕ → RouteResponse) (obs : ℕ → ℝ)
    (hall : ∀ j, respond j = RouteResponse.found (obs j)) (hpos : ∀ j, 0 < obs j) :
    ∀ (fuel m : ℕ) (lr : Option ℝ),
      lr = (if m = 0 then none
        else some (specRadius (d * METERS_PER_MILE * (105 / 100)) (d * METERS_PER_MILE / (2 * Real.pi * (115 / 100))) obs m)) →
      ∀ k, k + 1 ≤ (loop d respond (m + 1) lr (some (obs (m + 1))) fuel).1.length →
        (loop d respond (m + 1) lr (some (obs (m + 1))) fuel).1.get? k =
          some (some (specRadius (d * METERS_PER_MILE * (105 / 100)) (d * METERS_PER_MILE / (2 * Real.pi * (115 / 100))) obs (m + k + 1))) := by
  intro fuel
  induction fuel with
  | zero =>
    intro m lr _ k hk
    simp only [loop, List.length_nil] at hk
    omega
  | succ f ih =>
    intro m lr hlr k hk
    have hstep : stepRadius (d * METERS_PER_MILE) (m + 1 + 1) lr (some (obs (m + 1))) =
        (some (specRadius (d * METERS_PER_MILE * (105 / 100)) (d * METERS_PER_MILE / (2 * Real.pi * (115 / 100))) obs (m + 1)),
         some (specRadius (d * METERS_PER_MILE * (105 / 100)) (d * METERS_PER_MILE / (2 * Real.pi * (115 / 100))) obs (m + 1))) := by
      have hne : ¬(m + 1 + 1 = 1 ∨ obs (m + 1) = 0) := by
        rintro (h | h)
        · omega
        · exact absurd h (ne_of_gt (hpos (m + 1)))
      rcases Nat.eq_zero_or_pos m with rfl | hm
      · simp only [stepRadius, hlr, if_neg hne, if_pos rfl, Option.getD_none]
        rfl
      · obtain ⟨m', rfl⟩ : ∃ m', m = m' + 1 := ⟨m - 1, by omega⟩
        simp only [stepRadius, hlr, if_neg hne, if_neg (by omega : ¬(m' + 1 = 0)),
          Option.getD_some]
        rfl
    simp only [loop, hall (m + 1 + 1)] at hk ⊢
    rw [hstep] at hk ⊢
    by_cases hacc : acceptBandR (d * METERS_PER_MILE) (obs (m + 1 + 1)) ∨
        maxAttempts ≤ m + 1 + 1
    all_goals simp only [acceptBandR] at hacc
    · rw [if_pos hacc] at hk ⊢
      simp only [List.length_cons, List.length_nil] at hk
      have : k = 0 := by omega
      subst this
      simp
    · rw [if_neg hacc] at hk ⊢
      rcases Nat.eq_zero_or_pos k with rfl | hk1
      · simp
      · obtain ⟨k', rfl⟩ : ∃ k', k = k' + 1 := ⟨k - 1, by omega⟩
        simp only [List.length_cons] at hk
        simp only [List.get?_cons_succ]
        have := ih (m + 1)
          (some (specRadius (d * METERS_PER_MILE * (105 / 100)) (d * METERS_PER_MILE / (2 * Real.pi * (115 / 100))) obs (m + 1)))
          (by simp) k' (by omega)
        rwa [show m + 1 + k' + 1 = m + (k' + 1) + 1 by omega] at this

/-- Lemma `AppRefined.loop_stop_noRoute` transported to the symmetric public/app.js loop. -/
theorem AppSimple.simple_loop_stop_noRoute (d : ℝ) (respond : ℕ → RouteResponse) (obs : ℕ → ℝ) :
    ∀ (k fuel a : ℕ) (lr la : Option ℝ), 1 ≤ k → k ≤ fuel →
      (∀ j, 1 ≤ j → j < k → respond (a + j) = RouteResponse.found (obs (a + j)) ∧
        ¬acceptBandS (d * METERS_PER_MILE) (obs (a + j)) ∧ ¬(maxAttempts ≤ a + j)) →
      respond (a + k) = RouteResponse.noRoute →
      (loop d respond a lr la fuel).2 = Except.error noRouteMsg ∧
      (loop d respond a lr la fuel).1.length = k := by
  intro k
  induction k with
  | zero => intro fuel a lr la h1; exact absurd h1 (by norm_num)
  | succ k ih =>
    intro fuel a lr la _ hk hj hstop
    obtain ⟨f, rfl⟩ : ∃ f, fuel = f + 1 := ⟨fuel - 1, by omega⟩
    simp only [loop]
    rcases Nat.eq_zero_or_pos k with rfl | hk1
    · rw [show a + (0 + 1) = a + 1 by omega] at hstop
      rw [hstop]
      simp
    · have hv := hj 1 le_rfl (by omega)
      rw [hv.1]
      dsimp only
      rw [if_neg (fun h => h.elim hv.2.1 hv.2.2)]
      have hrec := ih f (a + 1) (stepRadius (d * METERS_PER_MILE) (a + 1) lr la).2
        (some (obs (a + 1))) hk1 (by omega)
        (fun j hj1 hj2 => by
          have h := hj (j + 1) (by omega) (by omega)
          rwa [show a + (j + 1) = a + 1 + j by omega] at h)
        (by rwa [show a + 1 + k = a + (k + 1) by omega])
      simp only [List.length_cons]
      exact ⟨hrec.1, by rw [hrec.2]⟩

/-- Lemma `AppRefined.loop_stop_found` transported to the symmetric public/app.js loop. -/
theorem AppSimple.simple_loop_stop_found (d : ℝ) (respond : ℕ → RouteResponse) (obs : ℕ → ℝ) :
    ∀ (k fuel a : ℕ) (lr la : Option ℝ), 1 ≤ k → k ≤ fuel →
      (∀ j, 1 ≤ j → j < k → respond (a + j) = RouteResponse.found (obs (a + j)) ∧
        ¬acceptBandS (d * METERS_PER_MILE) (obs (a + j)) ∧ ¬(maxAttempts ≤ a + j)) →
      respond (a + k) = RouteResponse.found (obs (a + k)) →
      (acceptBandS (d * METERS_PER_MILE) (obs (a + k)) ∨ maxAttempts ≤ a + k) →
      (loop d respond a lr la fuel).2 = Except.ok (obs (a + k)) ∧
      (loop d respond a lr la fuel).1.length = k := by
  intro k
  induction k with
  | zero => intro fuel a lr la h1; exact absurd h1 (by norm_num)
  | succ k ih =>
    intro fuel a lr la _ hk hj hfound hacc
    obtain ⟨f, rfl⟩ : ∃ f, fuel = f + 1 := ⟨fuel - 1, by omega⟩
    simp only [loop]
    rcases Nat.eq_zero_or_pos k with rfl | hk1
    · rw [show a + (0 + 1) = a + 1 by omega] at hfound hacc ⊢
      rw [hfound]
      dsimp only
      simp only [acceptBandS] at hacc
      rw [if_pos hacc]
      simp
    · have hv := hj 1 le_rfl (by omega)
      rw [hv.1]
      dsimp only
      rw [if_neg (fun h => h.elim hv.2.1 hv.2.2)]
      have hrec := ih f (a + 1) (stepRadius (d * METERS_PER_MILE) (a + 1) lr la).2
        (some (obs (a + 1))) hk1 (by omega)
        (fun j hj1 hj2 => by
          have h := hj (j + 1) (by omega) (by omega)
          rwa [show a + (j + 1) = a + 1 + j by omega] at h)
        (by rwa [show a + 1 + k = a + (k + 1) by omega])
        (by rwa [show a + 1 + k = a + (k + 1) by omega])
      simp only [List.length_cons]
      refine ⟨?_, by rw [hrec.2]⟩
      rw [show a + (k + 1) = a + 1 + k by omega]
      exact hrec.1

/-- Lemma `AppRefined.loop_allfound_ok` transported to the symmetric public/app.js loop. -/
theorem AppSimple.simple_loop_allfound_ok (d : ℝ) (respond : ℕ → RouteResponse) (obs : ℕ → ℝ)
    (hall : ∀ j, respond j = RouteResponse.found (obs j)) :
    ∀ (fuel a : ℕ) (lr la : Option ℝ), a + fuel = maxAttempts → 1 ≤ fuel →
      ∃ v, (loop d respond a lr la fuel).2 = Except.ok v := by
  intro fuel
  induction fuel with
  | zero => intro a lr la _ h1; exact absurd h1 (by norm_num)
  | succ f ih =>
    intro a lr la hmax _
    simp only [loop]
    rw [hall (a + 1)]
    dsimp only
    by_cases hacc : acceptBandS (d * METERS_PER_MILE) (obs (a + 1)) ∨ maxAttempts ≤ a + 1
    · simp only [acceptBandS] at hacc
      rw [if_pos hacc]
      exact ⟨obs (a + 1), rfl⟩
    · rw [if_neg (by simpa only [acceptBandS] using hacc)]
      have hf1 : 1 ≤ f := by
        rcases Nat.eq_zero_or_pos f with rfl | h
        · exact absurd (Or.inr (by omega)) hacc
        · exact h
      obtain ⟨v, hv⟩ := ih (a + 1) (stepRadius (d * METERS_PER_MILE) (a + 1) lr la).2
        (some (obs (a + 1))) (by omega) hf1
      exact ⟨v, hv⟩

/-- Lemma `AppRefined.loop_radii` transported to the symmetric public/app.js loop: no
overshoot bias, base anchor `2π·1.3`. -/
theorem AppSimple.simple_loop_radii (d : ℝ) (respond : ℕ → RouteResponse) (obs : ℕ → ℝ)
    (hall : ∀ j, respond j = RouteResponse.found (obs j)) (hpos : ∀ j, 0 < obs j) :
    ∀ (fuel m : ℕ) (lr : Option ℝ),
      lr = (if m = 0 then none
        else some (specRadius (d * METERS_PER_MILE)
          (d * METERS_PER_MILE / (2 * Real.pi * (13 / 10))) obs m)) →
      ∀ k, k + 1 ≤ (loop d respond (m + 1) lr (some (obs (m + 1))) fuel).1.length →
        (loop d respond (m + 1) lr (some (obs (m + 1))) fuel).1.get? k =
          some (some (specRadius (d * METERS_PER_MILE)
            (d * METERS_PER_MILE / (2 * Real.pi * (13 / 10))) obs (m + k + 1))) := by
  intro fuel
  induction fuel with
  | zero =>
    intro m lr _ k hk
    simp only [loop, List.length_nil] at hk
    omega
  | succ f ih =>
    intro m lr hlr k hk
    have hstep : stepRadius (d * METERS_PER_MILE) (m + 1 + 1) lr (some (obs (m + 1))) =
        (some (specRadius (d * METERS_PER_MILE)
          (d * METERS_PER_MILE / (2 * Real.pi * (13 / 10))) obs (m + 1)),
         some (specRadius (d * METERS_PER_MILE)
          (d * METERS_PER_MILE / (2 * Real.pi * (13 / 10))) obs (m + 1))) := by
      have hne : ¬(m + 1 + 1 = 1 ∨ obs (m + 1) = 0) := by
        rintro (h | h)
        · omega
        · exact absurd h (ne_of_gt (hpos (m + 1)))
      rcases Nat.eq_zero_or_pos m with rfl | hm
      · simp only [stepRadius, hlr, if_neg hne, if_pos rfl, Option.getD_none]
        rfl
      · obtain ⟨m', rfl⟩ : ∃ m', m = m' + 1 := ⟨m - 1, by omega⟩
        simp only [stepRadius, hlr, if_neg hne, if_neg (by omega : ¬(m' + 1 = 0)),
          Option.getD_some]
        rfl
    simp only [loop, hall (m + 1 + 1)] at hk ⊢
    rw [hstep] at hk ⊢
    by_cases hacc : acceptBandS (d * METERS_PER_MILE) (obs (m + 1 + 1)) ∨
        maxAttempts ≤ m + 1 + 1
    all_goals simp only [acceptBandS] at hacc
    · rw [if_pos hacc] at hk ⊢
      simp only [List.length_cons, List.length_nil] at hk
      have : k = 0 := by omega
      subst this
      simp
    · rw [if_neg hacc] at hk ⊢
      rcases Nat.eq_zero_or_pos k with rfl | hk1
      · simp
      · obtain ⟨k', rfl⟩ : ∃ k', k = k' + 1 := ⟨k - 1, by omega⟩
        simp only [List.length_cons] at hk
        simp only [List.get?_cons_succ]
        have := ih (m + 1)
          (some (specRadius (d * METERS_PER_MILE)
            (d * METERS_PER_MILE / (2 * Real.pi * (13 / 10))) obs (m + 1)))
          (by simp) k' (by omega)
        rwa [show m + 1 + k' + 1 = m + (k' + 1) + 1 by omega] at this

/-- Attempt 1 of the asymmetric loop never carries an override and leaves
`lastRadius` untouched, whatever the surviving module state. -/
theorem AppRefined.stepRadius_one (t : ℝ) (lr la : Option ℝ) :
    stepRadius t 1 lr la = (none, lr) := by
  cases la <;> simp [stepRadius]

/-- Attempt 1 of the symmetric loop never carries an override and leaves
`lastRadius` untouched, whatever the surviving module state. -/
theorem AppSimple.simple_stepRadius_one (t : ℝ) (lr la : Option ℝ) :
    stepRadius t 1 lr la = (none, lr) := by
  cases la <;> simp [stepRadius]

/-! ### C5: zero routes is a fatal, unretried error -/

/-- C5: if the collaborator's response at some attempt `k` within the budget
has zero routes (after `k-1` out-of-band observations), both loop variants
throw exactly "No route found. Try a different starting location." after `k`
attempts — no retry with a new radius — while runs whose responses all carry
routes never error (a tolerance miss is not an error). -/
theorem noRoute_error_spec :
    (∀ (d : ℝ) (respond : ℕ → RouteResponse) (init : Option ℝ) (obs : ℕ → ℝ) (k : ℕ),
      1 ≤ k → k ≤ AppRefined.maxAttempts →
      (∀ j, 1 ≤ j → j < k → respond j = RouteResponse.found (obs j) ∧
        ¬acceptBandR (d * METERS_PER_MILE) (obs j)) →
      respond k = RouteResponse.noRoute →
      (AppRefined.computeRoute d respond init).2 = Except.error noRouteMsg ∧
      (AppRefined.computeRoute d respond init).1.length = k) ∧
    (∀ (d : ℝ) (respond : ℕ → RouteResponse) (init : Option ℝ) (obs : ℕ → ℝ) (k : ℕ),
      1 ≤ k → k ≤ AppSimple.maxAttempts →
      (∀ j, 1 ≤ j → j < k → respond j = RouteResponse.found (obs j) ∧
        ¬acceptBandS (d * METERS_PER_MILE) (obs j)) →
      respond k = RouteResponse.noRoute →
      (AppSimple.computeRoute d respond init).2 = Except.error noRouteMsg ∧
      (AppSimple.computeRoute d respond init).1.length = k) ∧
    (∀ (d : ℝ) (respond : ℕ → RouteResponse) (init : Option ℝ) (obs : ℕ → ℝ),
      (∀ j, respond j = RouteResponse.found (obs j)) →
      (∃ v, (AppRefined.computeRoute d respond init).2 = Except.ok v) ∧
      (∃ v, (AppSimple.computeRoute d respond init).2 = Except.ok v)) := by
  refine ⟨?_, ?_, ?_⟩
  · intro d respond init obs k h1 hmax hj hstop
    exact AppRefined.loop_stop_noRoute d respond obs k AppRefined.maxAttempts 0 none init
      h1 hmax
      (fun j hj1 hj2 => by
        rw [zero_add]
        exact ⟨(hj j hj1 hj2).1, (hj j hj1 hj2).2, by omega⟩)
      (by rwa [zero_add])
  · intro d respond init obs k h1 hmax hj hstop
    exact AppSimple.simple_loop_stop_noRoute d respond obs k AppSimple.maxAttempts 0 none init
      h1 hmax
      (fun j hj1 hj2 => by
        rw [zero_add]
        exact ⟨(hj j hj1 hj2).1, (hj j hj1 hj2).2, by omega⟩)
      (by rwa [zero_add])
  · intro d respond init obs hall
    exact ⟨AppRefined.loop_allfound_ok d respond obs hall AppRefined.maxAttempts 0 none init
        (by omega) (by norm_num [AppRefined.maxAttempts]),
      AppSimple.simple_loop_allfound_ok d respond obs hall AppSimple.maxAttempts 0 none init
        (by omega) (by norm_num [AppSimple.maxAttempts])⟩

/-- Witness for C5: a first-attempt zero-route response errors immediately
with the exact message, after a single attempt. -/
theorem noRoute_error_spec_witness :
    (AppRefined.computeRoute 5 (fun _ => RouteResponse.noRoute) none).2 =
      Except.error noRouteMsg ∧
    (AppRefined.computeRoute 5 (fun _ => RouteResponse.noRoute) none).1.length = 1 :=
  noRoute_error_spec.1 5 (fun _ => RouteResponse.noRoute) none (fun _ => 0) 1
    le_rfl (by norm_num [AppRefined.maxAttempts])
    (fun j hj1 hj2 => absurd hj2 (by omega)) rfl

/-- One-step unfolding of the asymmetric loop. -/
theorem AppRefined.loop_step (d : ℝ) (respond : ℕ → RouteResponse) (a : ℕ)
    (lr la : Option ℝ) (f : ℕ) :
    loop d respond a lr la (f + 1) =
      match respond (a + 1) with
      | RouteResponse.noRoute =>
        ([(stepRadius (d * METERS_PER_MILE) (a + 1) lr la).1], Except.error noRouteMsg)
      | RouteResponse.found dist =>
        if (¬((dist - d * METERS_PER_MILE) / (d * METERS_PER_MILE) > 10 / 100) ∧
            ¬((dist - d * METERS_PER_MILE) / (d * METERS_PER_MILE) < -(3 / 100))) ∨
            maxAttempts ≤ a + 1 then
          ([(stepRadius (d * METERS_PER_MILE) (a + 1) lr la).1], Except.ok dist)
        else
          ((stepRadius (d * METERS_PER_MILE) (a + 1) lr la).1 ::
            (loop d respond (a + 1) (stepRadius (d * METERS_PER_MILE) (a + 1) lr la).2
              (some dist) f).1,
           (loop d respond (a + 1) (stepRadius (d * METERS_PER_MILE) (a + 1) lr la).2
             (some dist) f).2) := rfl

/-- One-step unfolding of the symmetric loop. -/
theorem AppSimple.simple_loop_step (d : ℝ) (respond : ℕ → RouteResponse) (a : ℕ)
    (lr la : Option ℝ) (f : ℕ) :
    loop d respond a lr la (f + 1) =
      match respond (a + 1) with
      | RouteResponse.noRoute =>
        ([(stepRadius (d * METERS_PER_MILE) (a + 1) lr la).1], Except.error noRouteMsg)
      | RouteResponse.found dist =>
        if |dist - d * METERS_PER_MILE| / (d * METERS_PER_MILE) ≤ 10 / 100 ∨
            maxAttempts ≤ a + 1 then
          ([(stepRadius (d * METERS_PER_MILE) (a + 1) lr la).1], Except.ok dist)
        else
          ((stepRadius (d * METERS_PER_MILE) (a + 1) lr la).1 ::
            (loop d respond (a + 1) (stepRadius (d * METERS_PER_MILE) (a + 1) lr la).2
              (some dist) f).1,
           (loop d respond (a + 1) (stepRadius (d * METERS_PER_MILE) (a + 1) lr la).2
             (some dist) f).2) := rfl

/-! ### C4: the corrected radius follows the sqrt-ratio recurrence -/

/-- C4: in runs whose responses all carry positive observed distances,
attempt 1 of either loop uses no radius override, and every later attempt
`k` uses exactly the override given by the spec recurrence
`newRadius = (previous radius, or the base radius if none yet) · sqrt(ratio)`
with `ratio = biasedTarget / lastObservedMeters` — biased target
`targetMeters·1.05` and base `targetMeters/(2π·1.15)` in the asymmetric
variant, unbiased target and base `targetMeters/(2π·1.3)` in the symmetric
one. -/
theorem radius_correction_spec :
    (∀ (d : ℝ) (respond : ℕ → RouteResponse) (init : Option ℝ) (obs : ℕ → ℝ),
      (∀ j, respond j = RouteResponse.found (obs j)) → (∀ j, 0 < obs j) →
      (AppRefined.computeRoute d respond init).1.get? 0 = some none ∧
      ∀ k, 2 ≤ k → k ≤ (AppRefined.computeRoute d respond init).1.length →
        (AppRefined.computeRoute d respond init).1.get? (k - 1) =
          some (some (specRadius (d * METERS_PER_MILE * (105 / 100))
            (d * METERS_PER_MILE / (2 * Real.pi * (115 / 100))) obs (k - 1)))) ∧
    (∀ (d : ℝ) (respond : ℕ → RouteResponse) (init : Option ℝ) (obs : ℕ → ℝ),
      (∀ j, respond j = RouteResponse.found (obs j)) → (∀ j, 0 < obs j) →
      (AppSimple.computeRoute d respond init).1.get? 0 = some none ∧
      ∀ k, 2 ≤ k → k ≤ (AppSimple.computeRoute d respond init).1.length →
        (AppSimple.computeRoute d respond init).1.get? (k - 1) =
          some (some (specRadius (d * METERS_PER_MILE)
            (d * METERS_PER_MILE / (2 * Real.pi * (13 / 10))) obs (k - 1)))) := by
  constructor
  · intro d respond init obs hall hpos
    rw [AppRefined.computeRoute, show AppRefined.maxAttempts = 3 + 1 from rfl,
      AppRefined.loop_step]
    simp only [zero_add, hall 1, AppRefined.stepRadius_one]
    by_cases hacc : acceptBandR (d * METERS_PER_MILE) (obs 1) ∨
        AppRefined.maxAttempts ≤ 1
    all_goals simp only [acceptBandR] at hacc
    · rw [if_pos hacc]
      refine ⟨rfl, fun k hk2 hklen => ?_⟩
      simp only [List.length_cons, List.length_nil] at hklen
      omega
    · rw [if_neg hacc]
      refine ⟨rfl, fun k hk2 hklen => ?_⟩
      obtain ⟨k', rfl⟩ : ∃ k', k = k' + 2 := ⟨k - 2, by omega⟩
      simp only [List.length_cons] at hklen
      have := AppRefined.loop_radii d respond obs hall hpos 3 0 none (by simp)
        k' (by simpa using hklen)
      simp only [zero_add] at this
      simpa using this
  · intro d respond init obs hall hpos
    rw [AppSimple.computeRoute, show AppSimple.maxAttempts = 2 + 1 from rfl,
      AppSimple.simple_loop_step]
    simp only [zero_add, hall 1, AppSimple.simple_stepRadius_one]
    by_cases hacc : acceptBandS (d * METERS_PER_MILE) (obs 1) ∨
        AppSimple.maxAttempts ≤ 1
    all_goals simp only [acceptBandS] at hacc
    · rw [if_pos hacc]
      refine ⟨rfl, fun k hk2 hklen => ?_⟩
      simp only [List.length_cons, List.length_nil] at hklen
      omega
    · rw [if_neg hacc]
      refine ⟨rfl, fun k hk2 hklen => ?_⟩
      obtain ⟨k', rfl⟩ : ∃ k', k = k' + 2 := ⟨k - 2, by omega⟩
      simp only [List.length_cons] at hklen
      have := AppSimple.simple_loop_radii d respond obs hall hpos 2 0 none (by simp)
        k' (by simpa using hklen)
      simp only [zero_add] at this
      simpa using this

/-- Witness for C4: with every response found and positive, attempt 1 of the
asymmetric loop carries no override. -/
theorem radius_correction_spec_witness :
    (AppRefined.computeRoute 5 (fun _ => RouteResponse.found 9000) none).1.get? 0 =
      some none :=
  (radius_correction_spec.1 5 (fun _ => RouteResponse.found 9000) none (fun _ => 9000)
    (fun _ => rfl) (fun _ => by norm_num)).1

/-! ### C3: tolerance-band acceptance and the 9000 m / 5 mi scenario -/

/-- C3: each loop accepts an observed distance exactly when
`pctDiff = (observed - target)/target` lies in its documented band
(asymmetric `[-0.03, +0.10]` in the refined variant, symmetric
`[-0.10, +0.10]` in the simpler one); a rejected attempt retries until the
budget (4, resp. 3 attempts) is exhausted, after which the last observation
is accepted as-is; and an observed 9000 m against the 5-mile target
(8046.7 m, pctDiff ≈ +11.8%) is rejected by both bands, the loops go on to
further attempts (to the full budget when every response reads 9000 m), and
the attempt-2 correction ratio is below 1 in both variants. -/
theorem tolerance_band_spec :
    (∀ t v : ℝ, acceptBandR t v ↔
      -(3 / 100) ≤ (v - t) / t ∧ (v - t) / t ≤ 10 / 100) ∧
    (∀ t v : ℝ, 0 < t → (acceptBandS t v ↔
      -(10 / 100) ≤ (v - t) / t ∧ (v - t) / t ≤ 10 / 100)) ∧
    (∀ (d : ℝ) (respond : ℕ → RouteResponse) (init : Option ℝ) (obs : ℕ → ℝ) (k : ℕ),
      1 ≤ k → k ≤ AppRefined.maxAttempts →
      (∀ j, 1 ≤ j → j < k → respond j = RouteResponse.found (obs j) ∧
        ¬acceptBandR (d * METERS_PER_MILE) (obs j)) →
      respond k = RouteResponse.found (obs k) →
      (acceptBandR (d * METERS_PER_MILE) (obs k) ∨ k = AppRefined.maxAttempts) →
      (AppRefined.computeRoute d respond init).2 = Except.ok (obs k) ∧
      (AppRefined.computeRoute d respond init).1.length = k) ∧
    (∀ (d : ℝ) (respond : ℕ → RouteResponse) (init : Option ℝ) (obs : ℕ → ℝ) (k : ℕ),
      1 ≤ k → k ≤ AppSimple.maxAttempts →
      (∀ j, 1 ≤ j → j < k → respond j = RouteResponse.found (obs j) ∧
        ¬acceptBandS (d * METERS_PER_MILE) (obs j)) →
      respond k = RouteResponse.found (obs k) →
      (acceptBandS (d * METERS_PER_MILE) (obs k) ∨ k = AppSimple.maxAttempts) →
      (AppSimple.computeRoute d respond init).2 = Except.ok (obs k) ∧
      (AppSimple.computeRoute d respond init).1.length = k) ∧
    (¬acceptBandR (5 * METERS_PER_MILE) 9000 ∧
      ¬acceptBandS (5 * METERS_PER_MILE) 9000) ∧
    (5 * (METERS_PER_MILE : ℝ) * (105 / 100) / 9000 < 1 ∧
      5 * (METERS_PER_MILE : ℝ) / 9000 < 1) ∧
    (AppRefined.computeRoute 5 (fun _ => RouteResponse.found 9000) none).1.length =
      AppRefined.maxAttempts ∧
    (AppSimple.computeRoute 5 (fun _ => RouteResponse.found 9000) none).1.length =
      AppSimple.maxAttempts := by
  have h9R : ¬acceptBandR (5 * METERS_PER_MILE) (9000 : ℝ) := by
    intro h
    exact h.1 (by norm_num [METERS_PER_MILE])
  have h9S : ¬acceptBandS (5 * METERS_PER_MILE) (9000 : ℝ) := by
    simp only [acceptBandS, METERS_PER_MILE]
    rw [abs_of_pos (by norm_num)]
    norm_num
  refine ⟨?_, ?_, ?_, ?_, ⟨h9R, h9S⟩, ⟨by norm_num [METERS_PER_MILE],
    by norm_num [METERS_PER_MILE]⟩, ?_, ?_⟩
  · intro t v
    simp only [acceptBandR, gt_iff_lt, not_lt]
    exact and_comm
  · intro t v ht
    simp only [acceptBandS]
    rw [show |v - t| / t = |(v - t) / t| by rw [abs_div, abs_of_pos ht], abs_le]
  · intro d respond init obs k h1 hmax hj hfound hacc
    have h := AppRefined.loop_stop_found d respond obs k AppRefined.maxAttempts 0 none init
      h1 hmax
      (fun j hj1 hj2 => by
        rw [zero_add]
        refine ⟨(hj j hj1 hj2).1, (hj j hj1 hj2).2, ?_⟩
        rw [show AppRefined.maxAttempts = 4 from rfl] at hmax ⊢
        omega)
      (by rwa [zero_add])
      (by rw [zero_add]; exact hacc.imp_right fun h => h.ge)
    rw [zero_add] at h
    exact h
  · intro d respond init obs k h1 hmax hj hfound hacc
    have h := AppSimple.simple_loop_stop_found d respond obs k AppSimple.maxAttempts 0 none init
      h1 hmax
      (fun j hj1 hj2 => by
        rw [zero_add]
        refine ⟨(hj j hj1 hj2).1, (hj j hj1 hj2).2, ?_⟩
        rw [show AppSimple.maxAttempts = 3 from rfl] at hmax ⊢
        omega)
      (by rwa [zero_add])
      (by rw [zero_add]; exact hacc.imp_right fun h => h.ge)
    rw [zero_add] at h
    exact h
  · exact (AppRefined.loop_stop_found 5 (fun _ => RouteResponse.found 9000)
      (fun _ => 9000) AppRefined.maxAttempts AppRefined.maxAttempts 0 none none
      (by rw [show AppRefined.maxAttempts = 4 from rfl]; omega) le_rfl
      (fun j hj1 hj2 => ⟨rfl, h9R, by
        rw [show AppRefined.maxAttempts = 4 from rfl] at hj2 ⊢
        omega⟩)
      rfl (Or.inr le_rfl)).2
  · exact (AppSimple.simple_loop_stop_found 5 (fun _ => RouteResponse.found 9000)
      (fun _ => 9000) AppSimple.maxAttempts AppSimple.maxAttempts 0 none none
      (by rw [show AppSimple.maxAttempts = 3 from rfl]; omega) le_rfl
      (fun j hj1 hj2 => ⟨rfl, h9S, by
        rw [show AppSimple.maxAttempts = 3 from rfl] at hj2 ⊢
        omega⟩)
      rfl (Or.inr le_rfl)).2

/-- Witness for C3: the symmetric band characterization at a concrete
positive target, and an immediately-accepted concrete run. -/
theorem tolerance_band_spec_witness :
    (acceptBandS 100 105 ↔
      -(10 / 100) ≤ ((105 : ℝ) - 100) / 100 ∧ ((105 : ℝ) - 100) / 100 ≤ 10 / 100) ∧
    (AppRefined.computeRoute 5 (fun _ => RouteResponse.found 8000) none).2 =
      Except.ok 8000 :=
  ⟨tolerance_band_spec.2.1 100 105 (by norm_num),
    (tolerance_band_spec.2.2.1 5 (fun _ => RouteResponse.found 8000) none
      (fun _ => 8000) 1 le_rfl (by rw [show AppRefined.maxAttempts = 4 from rfl]; omega)
      (fun j hj1 hj2 => absurd hj2 (by omega)) rfl
      (Or.inl (by
        constructor
        · norm_num [METERS_PER_MILE]
        · norm_num [METERS_PER_MILE]))).1⟩

/-! ### Geometry helper lemmas: edge chains, toggle parity -/

/-- Zipping a list with its predecessor list is the `chain` reshaping. -/
theorem zip_prev_eq_chain {α : Type} [LinearOrderedField α] :
    ∀ (l : List (Pt α)) (prev : Pt α), l.zip (prev :: l.dropLast) = chain l prev
  | [], _ => rfl
  | [_], _ => rfl
  | x :: y :: ys, prev =>
    congrArg (List.cons (x, prev)) (zip_prev_eq_chain (y :: ys) x)

/-- The number of sign changes of `g` along a chain has the parity of the
end-to-end comparison. -/
theorem chain_countP_parity {α : Type} [LinearOrderedField α] (g : Pt α → Bool) :
    ∀ (l : List (Pt α)) (prev : Pt α),
      (chain l prev).countP (fun pq => g pq.1 != g pq.2) % 2 =
        if g (l.getLastD prev) != g prev then 1 else 0 := by
  intro l
  induction l with
  | nil => intro prev; simp [chain]
  | cons x xs ih =>
    intro prev
    rw [chain, List.countP_cons, List.getLastD_cons]
    have h := ih x
    cases hgx : g x <;> cases hgp : g prev <;> cases hgl : g (xs.getLastD x) <;>
      simp only [hgx, hgp, hgl] at h ⊢ <;> simp at h ⊢ <;> omega

/-- Around a closed polygon, `g` changes sign an even number of times. -/
theorem withPrev_countP_even {α : Type} [LinearOrderedField α] (g : Pt α → Bool) (l : List (Pt α)) :
    (withPrev l).countP (fun pq => g pq.1 != g pq.2) % 2 = 0 := by
  cases l with
  | nil => simp [withPrev]
  | cons p ps =>
    rw [withPrev, zip_prev_eq_chain, chain_countP_parity]
    simp only [List.getLastD_cons]
    simp

/-- A fold of conditional toggles computes the parity of the toggling
edges. -/
theorem foldl_toggle_parity {α : Type} [LinearOrderedField α]
    (P : Pt α × Pt α → Prop) [DecidablePred P] :
    ∀ (L : List (Pt α × Pt α)) (b : Bool),
      L.foldl (fun inside pq => if P pq then !inside else inside) b =
        xor (decide (Odd (L.countP fun pq => decide (P pq)))) b := by
  intro L
  induction L with
  | nil => intro b; simp
  | cons e L ih =>
    intro b
    rw [List.foldl_cons, ih, List.countP_cons]
    by_cases h : P e
    · have hd : decide (Odd (List.countP (fun pq => decide (P pq)) L + 1)) =
          !decide (Odd (List.countP (fun pq => decide (P pq)) L)) :=
        (decide_eq_decide.mpr Nat.odd_add_one).trans decide_not
      rw [if_pos h, if_pos (decide_eq_true h), hd]
      cases decide (Odd (List.countP (fun pq => decide (P pq)) L)) <;> cases b <;> rfl
    · simp [h]

/-- The ray-cast test is the parity of the toggling edges. -/
theorem pointInPolygon_eq_parity {α : Type} [LinearOrderedField α] (lat lng : α)
    (poly : List (Pt α)) :
    pointInPolygon lat lng poly =
      decide (Odd ((withPrev poly).countP fun pq => decide (pipCond lat lng pq))) := by
  rw [pointInPolygon, foldl_toggle_parity (pipCond lat lng)]
  cases decide (Odd ((withPrev poly).countP fun pq => decide (pipCond lat lng pq))) <;> rfl

/-- The default-irrelevant last element of a nonempty list is an element. -/
theorem getLastD_cons_mem {α : Type} [LinearOrderedField α] :
    ∀ (p : Pt α) (ps : List (Pt α)) (d : Pt α), (p :: ps).getLastD d ∈ p :: ps
  | _, [], _ => by simp
  | p, q :: qs, d => by
    rw [List.getLastD_cons]
    exact List.mem_cons_of_mem p (getLastD_cons_mem q qs p)

/-- Both endpoints of every `withPrev` edge are polygon vertices. -/
theorem withPrev_mem {α : Type} [LinearOrderedField α] {poly : List (Pt α)}
    {pq : Pt α × Pt α} (h : pq ∈ withPrev poly) : pq.1 ∈ poly ∧ pq.2 ∈ poly := by
  obtain ⟨x, y⟩ := pq
  cases poly with
  | nil => simp [withPrev] at h
  | cons p ps =>
    rw [withPrev] at h
    have h1 := List.of_mem_zip h
    refine ⟨h1.1, ?_⟩
    rcases List.mem_cons.mp h1.2 with h2 | h2
    · rw [h2]
      exact getLastD_cons_mem p ps p
    · exact (List.dropLast_prefix (p :: ps)).subset h2

/-- Where a properly crossing edge meets the horizontal line of the query
point, the longitude lies between the edge endpoints' longitudes. -/
theorem intersect_between {α : Type} [LinearOrderedField α] (lat y1 y2 x1 x2 : α)
    (h : ¬(y1 > lat ↔ y2 > lat)) :
    min x1 x2 ≤ (x2 - x1) * (lat - y1) / (y2 - y1) + x1 ∧
    (x2 - x1) * (lat - y1) / (y2 - y1) + x1 ≤ max x1 x2 := by
  have ht01 : 0 ≤ (lat - y1) / (y2 - y1) ∧ (lat - y1) / (y2 - y1) ≤ 1 := by
    by_cases hA : y1 > lat
    · have hB : ¬(y2 > lat) := fun hB => h ⟨fun _ => hB, fun _ => hA⟩
      push_neg at hB
      have hden : 0 < y1 - y2 := by linarith
      have hrw : (lat - y1) / (y2 - y1) = (y1 - lat) / (y1 - y2) := by
        rw [show y1 - lat = -(lat - y1) by ring, show y1 - y2 = -(y2 - y1) by ring,
          neg_div_neg_eq]
      rw [hrw]
      exact ⟨div_nonneg (by linarith) (by linarith),
        (div_le_one hden).mpr (by linarith)⟩
    · have hB : y2 > lat := by
        by_contra hB
        exact h ⟨fun hA' => absurd hA' hA, fun hB' => absurd hB' hB⟩
      push_neg at hA
      have hden : 0 < y2 - y1 := by linarith
      exact ⟨div_nonneg (by linarith) (by linarith),
        (div_le_one hden).mpr (by linarith)⟩
  rw [mul_div_assoc]
  set t := (lat - y1) / (y2 - y1) with htdef
  rcases le_total x1 x2 with hx | hx
  · rw [min_eq_left hx, max_eq_right hx]
    constructor <;> nlinarith [ht01.1, ht01.2]
  · rw [min_eq_right hx, max_eq_left hx]
    constructor <;> nlinarith [ht01.1, ht01.2]

/-- A point beyond the polygon's latitude extent fails the ray-cast test. -/
theorem pip_false_of_lat_outside {α : Type} [LinearOrderedField α] (lat lng : α)
    (poly : List (Pt α))
    (h : (∀ v ∈ poly, v.lat < lat) ∨ (∀ v ∈ poly, lat < v.lat)) :
    pointInPolygon lat lng poly = false := by
  rw [pointInPolygon_eq_parity]
  have hz : (withPrev poly).countP (fun pq => decide (pipCond lat lng pq)) = 0 := by
    rw [List.countP_eq_zero]
    intro pq hpq
    have hm := withPrev_mem hpq
    simp only [decide_eq_true_eq]
    rintro ⟨h1, -⟩
    rcases h with h | h
    · exact h1 (iff_of_false (asymm (h _ hm.1)) (asymm (h _ hm.2)))
    · exact h1 (iff_of_true (h _ hm.1) (h _ hm.2))
  rw [hz]
  simp [Nat.odd_iff]

/-- A point to the right of the polygon's longitude extent fails the
ray-cast test: the rightward ray never reaches an edge. -/
theorem pip_false_of_lng_above {α : Type} [LinearOrderedField α] (lat lng : α)
    (poly : List (Pt α)) (h : ∀ v ∈ poly, v.lng < lng) :
    pointInPolygon lat lng poly = false := by
  rw [pointInPolygon_eq_parity]
  have hz : (withPrev poly).countP (fun pq => decide (pipCond lat lng pq)) = 0 := by
    rw [List.countP_eq_zero]
    intro pq hpq
    have hm := withPrev_mem hpq
    simp only [decide_eq_true_eq]
    rintro ⟨h1, h2⟩
    have hib := (intersect_between lat pq.1.lat pq.2.lat pq.1.lng pq.2.lng h1).2
    have hmax : max pq.1.lng pq.2.lng < lng := max_lt (h _ hm.1) (h _ hm.2)
    linarith
  rw [hz]
  simp [Nat.odd_iff]

/-- A point to the left of the polygon's longitude extent fails the
ray-cast test: the ray crosses each latitude-spanning edge, and around a
closed ring there are evenly many of those. -/
theorem pip_false_of_lng_below {α : Type} [LinearOrderedField α] (lat lng : α)
    (poly : List (Pt α)) (h : ∀ v ∈ poly, lng < v.lng) :
    pointInPolygon lat lng poly = false := by
  rw [pointInPolygon_eq_parity]
  have hcong : (withPrev poly).countP (fun pq => decide (pipCond lat lng pq)) =
      (withPrev poly).countP
        (fun pq => decide (pq.1.lat > lat) != decide (pq.2.lat > lat)) := by
    apply List.countP_congr
    intro pq hpq
    have hm := withPrev_mem hpq
    by_cases hA : pq.1.lat > lat <;> by_cases hB : pq.2.lat > lat
    · simp [pipCond, hA, hB]
    · have h1 : ¬(pq.1.lat > lat ↔ pq.2.lat > lat) := by tauto
      have h2 : lng < (pq.2.lng - pq.1.lng) * (lat - pq.1.lat) / (pq.2.lat - pq.1.lat) +
          pq.1.lng := by
        have hib := (intersect_between lat pq.1.lat pq.2.lat pq.1.lng pq.2.lng h1).1
        have hmin : lng < min pq.1.lng pq.2.lng := lt_min (h _ hm.1) (h _ hm.2)
        linarith
      simp [pipCond, hA, hB, h2]
    · have h1 : ¬(pq.1.lat > lat ↔ pq.2.lat > lat) := by tauto
      have h2 : lng < (pq.2.lng - pq.1.lng) * (lat - pq.1.lat) / (pq.2.lat - pq.1.lat) +
          pq.1.lng := by
        have hib := (intersect_between lat pq.1.lat pq.2.lat pq.1.lng pq.2.lng h1).1
        have hmin : lng < min pq.1.lng pq.2.lng := lt_min (h _ hm.1) (h _ hm.2)
        linarith
      simp [pipCond, hA, hB, h2]
    · simp [pipCond, hA, hB]
  rw [hcong]
  have heven := withPrev_countP_even (fun v => decide (v.lat > lat)) poly
  simp only [Nat.odd_iff]
  rw [decide_eq_false] <;> omega

/-- Under the generic-latitude condition, a toggling edge is exactly a
properly crossing edge. -/
theorem pipCond_iff_crossesRay {α : Type} [LinearOrderedField α] (lat lng : α)
    (pq : Pt α × Pt α) (h1 : pq.1.lat ≠ lat) (h2 : pq.2.lat ≠ lat) :
    pipCond lat lng pq ↔ crossesRay lat lng pq := by
  rw [pipCond, crossesRay,
    add_comm (pq.1.lng) ((pq.2.lng - pq.1.lng) * (lat - pq.1.lat) / (pq.2.lat - pq.1.lat))]
  constructor
  · rintro ⟨hc, hlng⟩
    have hcase : (pq.1.lat < lat ∧ lat < pq.2.lat) ∨ (pq.2.lat < lat ∧ lat < pq.1.lat) := by
      by_cases hA : pq.1.lat > lat
      · have hB : ¬(pq.2.lat > lat) := fun hB => hc ⟨fun _ => hB, fun _ => hA⟩
        exact Or.inr ⟨lt_of_le_of_ne (not_lt.mp hB) h2, hA⟩
      · have hB : pq.2.lat > lat := by
          by_contra hB
          exact hc ⟨fun hA' => absurd hA' hA, fun hB' => absurd hB' hB⟩
        exact Or.inl ⟨lt_of_le_of_ne (not_lt.mp hA) h1, hB⟩
    rcases hcase with ⟨hu, hv⟩ | ⟨hu, hv⟩
    · exact ⟨min_lt_iff.mpr (Or.inl hu), lt_max_iff.mpr (Or.inr hv), hlng⟩
    · exact ⟨min_lt_iff.mpr (Or.inr hu), lt_max_iff.mpr (Or.inl hv), hlng⟩
  · rintro ⟨hmin, hmax, hlng⟩
    refine ⟨?_, hlng⟩
    intro hiff
    by_cases hA : pq.1.lat > lat
    · have hB := hiff.mp hA
      have hlt : lat < min pq.1.lat pq.2.lat := lt_min hA hB
      linarith
    · have hB : ¬(pq.2.lat > lat) := fun hB => hA (hiff.mpr hB)
      have hy1 : pq.1.lat < lat := lt_of_le_of_ne (not_lt.mp hA) h1
      have hy2 : pq.2.lat < lat := lt_of_le_of_ne (not_lt.mp hB) h2
      have hlt : max pq.1.lat pq.2.lat < lat := max_lt hy1 hy2
      linarith

/-- Strict even-odd enclosure forces a positive ray-cast answer. -/
theorem pip_true_of_strictlyEnclosed {α : Type} [LinearOrderedField α] (lat lng : α)
    (poly : List (Pt α)) (h : strictlyEnclosed lat lng poly) :
    pointInPolygon lat lng poly = true := by
  obtain ⟨hgen, hodd⟩ := h
  rw [pointInPolygon_eq_parity]
  have hcong : (withPrev poly).countP (fun pq => decide (pipCond lat lng pq)) =
      (withPrev poly).countP (fun pq => decide (crossesRay lat lng pq)) := by
    apply List.countP_congr
    intro pq hpq
    simp only [decide_eq_true_eq]
    exact pipCond_iff_crossesRay lat lng pq
      (hgen _ (withPrev_mem hpq).1) (hgen _ (withPrev_mem hpq).2)
  rw [hcong]
  exact decide_eq_true hodd

/-! ### C8: ray-cast classification -/

/-- C8: for polygons with at least 3 vertices, `pointInPolygon` answers
`false` at every point outside the polygon's bounding extent (strictly
beyond it in any of the four directions), `true` at every point strictly
enclosed in the even-odd sense (an odd number of proper ray crossings, at a
generic latitude), and on the concrete concave L-shape it excludes the point
sitting in the re-entrant corner while including a strictly enclosed one. -/
theorem pointInPolygon_spec :
    (∀ (α : Type) [LinearOrderedField α], ∀ (lat lng : α) (poly : List (Pt α)),
      3 ≤ poly.length →
      ((∀ v ∈ poly, v.lat < lat) ∨ (∀ v ∈ poly, lat < v.lat) ∨
        (∀ v ∈ poly, v.lng < lng) ∨ (∀ v ∈ poly, lng < v.lng)) →
      pointInPolygon lat lng poly = false) ∧
    (∀ (α : Type) [LinearOrderedField α], ∀ (lat lng : α) (poly : List (Pt α)),
      3 ≤ poly.length → strictlyEnclosed lat lng poly →
      pointInPolygon lat lng poly = true) ∧
    (3 ≤ Lshape.length ∧
      pointInPolygon (3 / 2 : ℚ) (3 / 2) Lshape = false ∧
      strictlyEnclosed (1 / 2 : ℚ) (1 / 2) Lshape ∧
      pointInPolygon (1 / 2 : ℚ) (1 / 2) Lshape = true) := by
  have hL : strictlyEnclosed (1 / 2 : ℚ) (1 / 2) Lshape := by
    constructor
    · intro v hv
      fin_cases hv <;> norm_num
    · norm_num [withPrev, Lshape, List.zip, List.zipWith, List.getLastD, List.dropLast,
        List.countP, List.countP.go, crossesRay, Nat.odd_iff]
  refine ⟨?_, ?_, by norm_num [Lshape], ?_, hL, pip_true_of_strictlyEnclosed _ _ _ hL⟩
  · intro α _ lat lng poly _ hdir
    rcases hdir with h | h | h | h
    · exact pip_false_of_lat_outside lat lng poly (Or.inl h)
    · exact pip_false_of_lat_outside lat lng poly (Or.inr h)
    · exact pip_false_of_lng_above lat lng poly h
    · exact pip_false_of_lng_below lat lng poly h
  · intro α _ lat lng poly _ hencl
    exact pip_true_of_strictlyEnclosed lat lng poly hencl
  · norm_num [pointInPolygon, withPrev, pipCond, Lshape, List.zip, List.zipWith,
      List.getLastD, List.dropLast, List.foldl]

/-- Witness for C8: the bounding-extent rule applied to a concrete triangle
and a point far above it, and the enclosure rule applied to the L-shape. -/
theorem pointInPolygon_spec_witness :
    pointInPolygon (10 : ℚ) 0 [⟨0, 0⟩, ⟨0, 4⟩, ⟨4, 0⟩] = false ∧
    pointInPolygon (1 / 2 : ℚ) (1 / 2) Lshape = true := by
  constructor
  · refine pointInPolygon_spec.1 ℚ 10 0 [⟨0, 0⟩, ⟨0, 4⟩, ⟨4, 0⟩] (by norm_num)
      (Or.inl ?_)
    intro v hv
    fin_cases hv <;> norm_num
  · exact pointInPolygon_spec.2.1 ℚ (1 / 2) (1 / 2) Lshape (by norm_num [Lshape])
      pointInPolygon_spec.2.2.2.2.1

/-! ### Rectangle boundaries: the ray-cast region and the nudged projection -/

/-- On an axis-aligned rectangle (spec vertex order), the ray-cast test
recognizes exactly the half-open box. -/
theorem rect_pip_iff {α : Type} [LinearOrderedField α] (a b c d lat lng : α)
    (hab : a < b) (hcd : c < d) :
    (pointInPolygon lat lng (rectPoly a b c d) = true ↔
      a ≤ lat ∧ lat < b ∧ c ≤ lng ∧ lng < d) := by
  have hXiff : (¬(a > lat ↔ b > lat)) ↔ (a ≤ lat ∧ lat < b) := by
    constructor
    · intro hX
      by_cases hA : a > lat
      · exact absurd ⟨fun _ => lt_trans hA hab, fun _ => hA⟩ hX
      · push_neg at hA
        have hB : b > lat := by
          by_contra hB
          exact hX ⟨fun hA' => absurd hA' (not_lt.mpr hA), fun hB' => absurd hB' hB⟩
        exact ⟨hA, hB⟩
    · rintro ⟨h1', h2'⟩ hiff
      exact absurd (hiff.mpr h2') (not_lt.mpr h1')
  have he1 : pipCond lat lng ((⟨a, c⟩ : Pt α), (⟨b, c⟩ : Pt α)) ↔
      (¬(a > lat ↔ b > lat)) ∧ lng < c := by
    rw [pipCond]
    simp
  have he3 : pipCond lat lng ((⟨b, d⟩ : Pt α), (⟨a, d⟩ : Pt α)) ↔
      (¬(b > lat ↔ a > lat)) ∧ lng < d := by
    rw [pipCond]
    simp
  have hfold : pointInPolygon lat lng (rectPoly a b c d) =
      ((fun inside pq => if pipCond lat lng pq then !inside else inside) : Bool → _ → Bool)
        ((fun inside pq => if pipCond lat lng pq then !inside else inside)
          ((fun inside pq => if pipCond lat lng pq then !inside else inside)
            ((fun inside pq => if pipCond lat lng pq then !inside else inside)
              false ((⟨a, c⟩ : Pt α), (⟨b, c⟩ : Pt α)))
            ((⟨a, d⟩ : Pt α), (⟨a, c⟩ : Pt α)))
          ((⟨b, d⟩ : Pt α), (⟨a, d⟩ : Pt α)))
        ((⟨b, c⟩ : Pt α), (⟨b, d⟩ : Pt α)) := rfl
  rw [hfold]
  simp only []
  rw [if_neg (show ¬pipCond lat lng ((⟨b, c⟩ : Pt α), (⟨b, d⟩ : Pt α)) from
        fun h => h.1 Iff.rfl),
    if_neg (show ¬pipCond lat lng ((⟨a, d⟩ : Pt α), (⟨a, c⟩ : Pt α)) from
        fun h => h.1 Iff.rfl)]
  by_cases h1 : pipCond lat lng ((⟨a, c⟩ : Pt α), (⟨b, c⟩ : Pt α)) <;>
    by_cases h3 : pipCond lat lng ((⟨b, d⟩ : Pt α), (⟨a, d⟩ : Pt α))
  · rw [if_pos h1, if_pos h3]
    obtain ⟨hX, hc'⟩ := he1.mp h1
    rw [show ((!(!false) : Bool)) = false from rfl]
    simp only [Bool.false_eq_true, false_iff]
    rintro ⟨-, -, hc2, -⟩
    exact absurd hc' (not_lt.mpr hc2)
  · obtain ⟨hX, hc'⟩ := he1.mp h1
    exact absurd (he3.mpr ⟨fun hiff => hX hiff.symm, lt_trans hc' hcd⟩) h3
  · rw [if_neg h1, if_pos h3]
    obtain ⟨hX', hd'⟩ := he3.mp h3
    have hX : ¬(a > lat ↔ b > lat) := fun hiff => hX' hiff.symm
    have hc' : ¬(lng < c) := fun hc2 => h1 (he1.mpr ⟨hX, hc2⟩)
    constructor
    · intro _
      exact ⟨(hXiff.mp hX).1, (hXiff.mp hX).2, not_lt.mp hc', hd'⟩
    · intro _
      rfl
  · rw [if_neg h1, if_neg h3]
    simp only [Bool.false_eq_true, false_iff]
    rintro ⟨hla, hlb, hlc, hld⟩
    exact h3 (he3.mpr ⟨fun hiff => (hXiff.mpr ⟨hla, hlb⟩) hiff.symm, hld⟩)

/-- The clamped projection onto a segment stays in any axis-aligned box
containing the segment's endpoints. -/
theorem projectToSegment_mem_box {α : Type} [LinearOrderedField α]
    (lat lng lo hi lo2 hi2 : α) (p q : Pt α)
    (hp1 : lo ≤ p.lat) (hp2 : p.lat ≤ hi) (hp3 : lo2 ≤ p.lng) (hp4 : p.lng ≤ hi2)
    (hq1 : lo ≤ q.lat) (hq2 : q.lat ≤ hi) (hq3 : lo2 ≤ q.lng) (hq4 : q.lng ≤ hi2) :
    lo ≤ (projectToSegment lat lng p q).lat ∧ (projectToSegment lat lng p q).lat ≤ hi ∧
    lo2 ≤ (projectToSegment lat lng p q).lng ∧ (projectToSegment lat lng p q).lng ≤ hi2 := by
  simp only [projectToSegment]
  split_ifs with h
  · exact ⟨hp1, hp2, hp3, hp4⟩
  · set t := max 0 (min 1
      (((lng - p.lng) * (q.lng - p.lng) + (lat - p.lat) * (q.lat - p.lat)) /
        ((q.lng - p.lng) * (q.lng - p.lng) + (q.lat - p.lat) * (q.lat - p.lat)))) with htd
    have ht0 : 0 ≤ t := le_max_left _ _
    have ht1 : t ≤ 1 := max_le (by norm_num) (min_le_left _ _)
    clear_value t
    refine ⟨?_, ?_, ?_, ?_⟩ <;> dsimp only
    · nlinarith [mul_nonneg ht0 (sub_nonneg.mpr hq1),
        mul_nonneg (sub_nonneg.mpr ht1) (sub_nonneg.mpr hp1)]
    · nlinarith [mul_nonneg ht0 (sub_nonneg.mpr hq2 : (0:α) ≤ hi - q.lat),
        mul_nonneg (sub_nonneg.mpr ht1) (sub_nonneg.mpr hp2 : (0:α) ≤ hi - p.lat)]
    · nlinarith [mul_nonneg ht0 (sub_nonneg.mpr hq3),
        mul_nonneg (sub_nonneg.mpr ht1) (sub_nonneg.mpr hp3)]
    · nlinarith [mul_nonneg ht0 (sub_nonneg.mpr hq4 : (0:α) ≤ hi2 - q.lng),
        mul_nonneg (sub_nonneg.mpr ht1) (sub_nonneg.mpr hp4 : (0:α) ≤ hi2 - p.lng)]

/-- The best-projection fold over edges lying in a box never leaves the box
(and only stays `none` when it had nothing to fold). -/
theorem nearest_fold_mem_box {α : Type} [LinearOrderedField α] (lat lng lo hi lo2 hi2 : α) :
    ∀ (L : List (Pt α × Pt α)) (acc : Option (α × Pt α)),
      (∀ pq ∈ L,
        (lo ≤ pq.1.lat ∧ pq.1.lat ≤ hi ∧ lo2 ≤ pq.1.lng ∧ pq.1.lng ≤ hi2) ∧
        (lo ≤ pq.2.lat ∧ pq.2.lat ≤ hi ∧ lo2 ≤ pq.2.lng ∧ pq.2.lng ≤ hi2)) →
      (∀ dd pp, acc = some (dd, pp) →
        lo ≤ pp.lat ∧ pp.lat ≤ hi ∧ lo2 ≤ pp.lng ∧ pp.lng ≤ hi2) →
      (∀ dd pp, L.foldl (nearStep lat lng) acc = some (dd, pp) →
        lo ≤ pp.lat ∧ pp.lat ≤ hi ∧ lo2 ≤ pp.lng ∧ pp.lng ≤ hi2) ∧
      (L.foldl (nearStep lat lng) acc = none → acc = none ∧ L = []) := by
  intro L
  induction L with
  | nil =>
    intro acc _ hacc
    exact ⟨fun dd pp h => hacc dd pp h, fun h => ⟨h, rfl⟩⟩
  | cons e L ih =>
    intro acc hL hacc
    rw [List.foldl_cons]
    have he := hL e (List.mem_cons_self e L)
    have hproj := projectToSegment_mem_box lat lng lo hi lo2 hi2 e.2 e.1
      he.2.1 he.2.2.1 he.2.2.2.1 he.2.2.2.2 he.1.1 he.1.2.1 he.1.2.2.1 he.1.2.2.2
    have hacc2 : ∀ dd pp, nearStep lat lng acc e = some (dd, pp) →
        lo ≤ pp.lat ∧ pp.lat ≤ hi ∧ lo2 ≤ pp.lng ∧ pp.lng ≤ hi2 := by
      intro dd pp hstep
      rcases acc with _ | ⟨bd, bp⟩
      · simp only [nearStep, Option.some.injEq, Prod.mk.injEq] at hstep
        rw [← hstep.2]
        exact hproj
      · simp only [nearStep] at hstep
        split_ifs at hstep <;>
          simp only [Option.some.injEq, Prod.mk.injEq] at hstep
        · rw [← hstep.2]
          exact hproj
        · rw [← hstep.2]
          exact hacc bd bp rfl
    have hrec := ih (nearStep lat lng acc e)
      (fun pq hpq => hL pq (List.mem_cons_of_mem e hpq)) hacc2
    refine ⟨hrec.1, fun hnone => ?_⟩
    have h2 := (hrec.2 hnone).1
    rcases acc with _ | ⟨bd, bp⟩
    · simp only [nearStep] at h2
      exact absurd h2 (by simp)
    · simp only [nearStep] at h2
      split_ifs at h2 <;> simp at h2

/-- The 2%-nudged nearest boundary point of an axis-aligned rectangle
boundary (spec vertex order) always passes the ray-cast test against that
same rectangle. -/
theorem nearestPointOnPolygon_rect {α : Type} [LinearOrderedField α]
    (a b c d lat lng : α) (hab : a < b) (hcd : c < d) :
    pointInPolygon (nearestPointOnPolygon lat lng (rectPoly a b c d)).lat
      (nearestPointOnPolygon lat lng (rectPoly a b c d)).lng (rectPoly a b c d) = true := by
  rw [rect_pip_iff a b c d _ _ hab hcd]
  have hv : ∀ v ∈ rectPoly a b c d, a ≤ v.lat ∧ v.lat ≤ b ∧ c ≤ v.lng ∧ v.lng ≤ d := by
    intro v hv
    fin_cases hv <;>
      exact ⟨by first | exact le_rfl | exact hab.le,
        by first | exact le_rfl | exact hab.le,
        by first | exact le_rfl | exact hcd.le,
        by first | exact le_rfl | exact hcd.le⟩
  have hedges : ∀ pq ∈ withPrev (rectPoly a b c d),
      (a ≤ pq.1.lat ∧ pq.1.lat ≤ b ∧ c ≤ pq.1.lng ∧ pq.1.lng ≤ d) ∧
      (a ≤ pq.2.lat ∧ pq.2.lat ≤ b ∧ c ≤ pq.2.lng ∧ pq.2.lng ≤ d) := by
    intro pq hpq
    exact ⟨hv _ (withPrev_mem hpq).1, hv _ (withPrev_mem hpq).2⟩
  have hbox := nearest_fold_mem_box lat lng a b c d (withPrev (rectPoly a b c d)) none
    hedges (by simp)
  have hcen : polygonCentroid (rectPoly a b c d) = ⟨(a + b) / 2, (c + d) / 2⟩ := by
    have h4 : ((0 + 1 + 1 + 1 + 1 : ℕ) : α) = 4 := by norm_num
    simp only [polygonCentroid, rectPoly, List.map_cons, List.map_nil, List.sum_cons,
      List.sum_nil, List.length_cons, List.length_nil, h4, Nat.cast_ofNat, Pt.mk.injEq]
    constructor <;> ring
  rw [nearestPointOnPolygon]
  rcases hfold : (withPrev (rectPoly a b c d)).foldl (nearStep lat lng) none with _ | ⟨dd, pp⟩
  · have := (hbox.2 hfold).2
    rw [show withPrev (rectPoly a b c d) =
      [((⟨a, c⟩ : Pt α), (⟨b, c⟩ : Pt α)), (⟨a, d⟩, ⟨a, c⟩), (⟨b, d⟩, ⟨a, d⟩),
        (⟨b, c⟩, ⟨b, d⟩)] from rfl] at this
    exact absurd this (by simp)
  · have hpp := hbox.1 dd pp hfold
    rw [hcen]
    dsimp only
    obtain ⟨g1, g2, g3, g4⟩ := hpp
    refine ⟨by linarith, by linarith, by linarith, by linarith⟩

/-- On the U-shaped boundary, the query `(2, 1.5)` (in the notch) projects
to the notch wall point `(2, 2)`, and the 2% nudge toward the centroid
`(7/4, 3/2)` lands on `(1.995, 1.99)`. -/
theorem Ushape_nearest_eval :
    nearestPointOnPolygon (2 : ℝ) (3 / 2) UshapeR = ⟨1995 / 1000, 199 / 100⟩ := by
  norm_num [nearestPointOnPolygon, nearStep, withPrev, projectToSegment, polygonCentroid,
    UshapeR, List.zip, List.zipWith, List.getLastD, List.dropLast, List.foldl,
    max_def, min_def, Pt.mk.injEq]

/-- The notch point `(2, 1.5)` is outside the U-shape. -/
theorem Ushape_pip_raw : pointInPolygon (2 : ℝ) (3 / 2) UshapeR = false := by
  norm_num [pointInPolygon, withPrev, pipCond, UshapeR, List.zip, List.zipWith,
    List.getLastD, List.dropLast, List.foldl]

/-- The nudged point `(1.995, 1.99)` is still outside the U-shape. -/
theorem Ushape_pip_nudged :
    pointInPolygon (1995 / 1000 : ℝ) (199 / 100) UshapeR = false := by
  norm_num [pointInPolygon, withPrev, pipCond, UshapeR, List.zip, List.zipWith,
    List.getLastD, List.dropLast, List.foldl]

/-! ### C2: nearestPointOnPolygon and the point-in-polygon guarantee -/

/-- Counterexample to C2 as stated: the U-shaped polygon has at least 3
vertices, yet the output of `nearestPointOnPolygon` for the query
`(2, 1.5)` fails `pointInPolygon` against that same polygon — the vertex
mean centroid lies in the notch, so the 2% nudge pushes the projected
boundary point outside. -/
theorem nearest_inside_counterexample :
    3 ≤ UshapeR.length ∧
    pointInPolygon (nearestPointOnPolygon (2 : ℝ) (3 / 2) UshapeR).lat
      (nearestPointOnPolygon (2 : ℝ) (3 / 2) UshapeR).lng UshapeR = false := by
  refine ⟨by norm_num [UshapeR], ?_⟩
  rw [Ushape_nearest_eval]
  exact Ushape_pip_nudged

/-- C2 amended: for every axis-aligned rectangle boundary (the spec's
section-8 vertex order, positive extent) and every query point, the point
returned by `nearestPointOnPolygon` satisfies `pointInPolygon` against that
same polygon. -/
theorem nearest_inside_rect_spec (α : Type) [LinearOrderedField α]
    (a b c d lat lng : α) (hab : a < b) (hcd : c < d) :
    3 ≤ (rectPoly a b c d).length ∧
    pointInPolygon (nearestPointOnPolygon lat lng (rectPoly a b c d)).lat
      (nearestPointOnPolygon lat lng (rectPoly a b c d)).lng (rectPoly a b c d) = true :=
  ⟨by norm_num [rectPoly], nearestPointOnPolygon_rect a b c d lat lng hab hcd⟩

/-- Witness for amended C2 at the spec's square scenario boundary. -/
theorem nearest_inside_rect_spec_witness :
    3 ≤ (rectPoly (40710 / 1000 : ℚ) (40716 / 1000) (-74010 / 1000) (-74002 / 1000)).length ∧
    pointInPolygon
      (nearestPointOnPolygon (40713 / 1000 : ℚ) (-74020 / 1000)
        (rectPoly (40710 / 1000) (40716 / 1000) (-74010 / 1000) (-74002 / 1000))).lat
      (nearestPointOnPolygon (40713 / 1000 : ℚ) (-74020 / 1000)
        (rectPoly (40710 / 1000) (40716 / 1000) (-74010 / 1000) (-74002 / 1000))).lng
      (rectPoly (40710 / 1000) (40716 / 1000) (-74010 / 1000) (-74002 / 1000)) = true :=
  nearest_inside_rect_spec ℚ (40710 / 1000) (40716 / 1000) (-74010 / 1000) (-74002 / 1000)
    (40713 / 1000) (-74020 / 1000) (by norm_num) (by norm_num)

/-! ### C1: the boundary invariant of generateWaypoints -/

/-- Counterexample to C1 as stated: with the U-shaped boundary (8 ≥ 3
vertices), start `(1, 1.5)`, target 1 mile, radius override 111320 m and
the valid draw stream `0, 1/2, 1/2, …`, the first waypoint lands at
`(2, 1.5)` in the notch and the correction step leaves it at
`(1.995, 1.99)`, still outside — the returned set violates the
point-in-polygon invariant. -/
theorem waypoints_in_boundary_counterexample :
    (∀ n, 0 ≤ (fun n : ℕ => if n = 0 then (0 : ℝ) else 1 / 2) n ∧
      (fun n : ℕ => if n = 0 then (0 : ℝ) else 1 / 2) n < 1) ∧
    3 ≤ UshapeR.length ∧
    ¬(∀ p ∈ generateWaypoints 1 (3 / 2) 1 (some 111320) UshapeR
        (fun n : ℕ => if n = 0 then (0 : ℝ) else 1 / 2),
      pointInPolygon p.lat p.lng UshapeR = true) := by
  refine ⟨fun n => by by_cases h : n = 0 <;> simp [h] <;> norm_num,
    by norm_num [UshapeR], fun hall => ?_⟩
  have h0 : Pt.mk (1995 / 1000 : ℝ) (199 / 100) ∈
      generateWaypoints 1 (3 / 2) 1 (some 111320) UshapeR
        (fun n : ℕ => if n = 0 then (0 : ℝ) else 1 / 2) := by
    rw [generateWaypoints, show getWaypointCount (1 : ℝ) = 4 by norm_num [getWaypointCount],
      show resolveRadius 1 (some 111320) = 111320 by norm_num [resolveRadius],
      waypointsAtRadius]
    refine List.mem_map.mpr ⟨0, by norm_num, ?_⟩
    norm_num [Real.cos_zero, Real.sin_zero, METERS_PER_DEGREE_LAT,
      Ushape_pip_raw, Ushape_nearest_eval,
      (show (3 : ℕ) ≤ UshapeR.length from by norm_num [UshapeR])]
  have h2 : pointInPolygon (1995 / 1000 : ℝ) (199 / 100) UshapeR = true := hall _ h0
  rw [Ushape_pip_nudged] at h2
  exact absurd h2 (by simp)

/-- C1 amended: for every axis-aligned rectangle boundary (spec section-8
vertex order, positive extent), every call to `generateWaypoints` with that
boundary returns only points satisfying `pointInPolygon` against it, for
all start coordinates, target distances, radius overrides and random
draws. -/
theorem waypoints_in_rect_boundary_spec (startLat startLng distanceMiles : ℝ)
    (ro : Option ℝ) (rand : ℕ → ℝ) (a b c d : ℝ) (hab : a < b) (hcd : c < d) :
    ∀ p ∈ generateWaypoints startLat startLng distanceMiles ro (rectPoly a b c d) rand,
      pointInPolygon p.lat p.lng (rectPoly a b c d) = true := by
  intro p hp
  rw [generateWaypoints, waypointsAtRadius] at hp
  obtain ⟨i, -, rfl⟩ := List.mem_map.mp hp
  dsimp only
  rw [if_pos (show 3 ≤ (rectPoly a b c d).length by norm_num [rectPoly])]
  split_ifs with hin
  · exact hin
  · exact nearestPointOnPolygon_rect a b c d _ _ hab hcd

/-- Witness for amended C1 at the spec's square boundary with constant
draws. -/
theorem waypoints_in_rect_boundary_spec_witness :
    (generateWaypoints 40.7128 (-74.0060) 5 none
        (rectPoly (40710 / 1000 : ℝ) (40716 / 1000) (-74010 / 1000) (-74002 / 1000))
        (fun _ => 1 / 2)).all
      (fun p => pointInPolygon p.lat p.lng
        (rectPoly (40710 / 1000 : ℝ) (40716 / 1000) (-74010 / 1000) (-74002 / 1000))) = true :=
  List.all_eq_true.mpr
    (waypoints_in_rect_boundary_spec 40.7128 (-74.0060) 5 none (fun _ => 1 / 2)
      (40710 / 1000) (40716 / 1000) (-74010 / 1000) (-74002 / 1000)
      (by norm_num) (by norm_num))

end TrainingRoutes
